import Mathlib

/-!
Verification development for the csv-to-json ingestion core of the
multi-vector-simulator repository. The Python sources embedded here are
`src/A1_csv_to_json.py` and `src/multi_vector_simulator/utils/__init__.py`.
Python dictionaries are modelled as insertion-ordered association lists,
pandas cells as a tagged value type (`JValue`, with `nanV` standing for a
missing cell / float NaN), logging calls as accumulated `Diag` values, and
raised Python exceptions as the error channel of `Except PyError`.
-/

set_option autoImplicit false

namespace MVS

/-- Python exception kinds that the embedded code can raise. `fileExistsError`
models `FileExistsError`, `typeError` models `TypeError` (e.g. `dict.update(None)`),
`valueError` models `ValueError`, `keyError` a dict `KeyError`, `nameError` a
`NameError` on an unbound local, `missingParameterError` the repository's
`MissingParameterError`. -/
inductive PyError where
  | fileExistsError
  | typeError
  | valueError
  | keyError
  | nameError
  | missingParameterError
deriving DecidableEq, Repr

/-- Values that can sit in a pandas cell or in the produced json dictionary.
`null` is Python `None`; `nanV` is float NaN, which is what pandas stores for a
missing cell (`pd.isnull` is true exactly on `null` and `nanV`); `floatRaw`
keeps the text of a parsed float literal, since no claim depends on float
arithmetic; `obj` is an insertion-ordered Python dict. -/
inductive JValue where
  | int (n : Int)
  | floatRaw (s : String)
  | str (s : String)
  | bool (b : Bool)
  | null
  | nanV
  | arr (xs : List JValue)
  | obj (kvs : List (String × JValue))

/-- A Python dict with string keys, as an insertion-ordered association list. -/
abbrev Dict := List (String × JValue)

/-- Python `d[k] = v` on an insertion-ordered association map: replace in
place if the key exists (keeping its position), otherwise append at the end. -/
def mapSet {α : Type} : List (String × α) → String → α → List (String × α)
  | [], k, v => [(k, v)]
  | kv :: rest, k, v =>
    if kv.1 = k then (k, v) :: rest else kv :: mapSet rest k v

/-- Python `d.get(k)` on an association map. -/
def mapGet {α : Type} : List (String × α) → String → Option α
  | [], _ => none
  | kv :: rest, k => if kv.1 = k then some kv.2 else mapGet rest k

/-- Python `d[k] = v`. -/
def dictUpdate (d : Dict) (k : String) (v : JValue) : Dict := mapSet d k v

/-- Python `d.get(k)` as an option. -/
def dictLookup (d : Dict) (k : String) : Option JValue := mapGet d k

/-- Python `k in d`. -/
def dictHasKey (d : Dict) (k : String) : Bool := (mapGet d k).isSome

/-- Python `d.update(d2)` for two dicts: every key of `d2` is written into `d`
in `d2`'s order. -/
def dictMerge (d d2 : Dict) : Dict :=
  d2.foldl (fun acc kv => dictUpdate acc kv.1 kv.2) d

/-- The keys of a dict, in insertion order. -/
def dictKeys (d : Dict) : List String := d.map (fun kv => kv.1)

/-- Diagnostics: every `logging.warning` / `logging.error` / `logging.info`
call of the embedded code becomes one tagged value appended to the run's
diagnostic list. None of them interrupts control flow. -/
inductive Diag where
  | unbalancedBracket (filename column param : String)
  | unbalancedBrace (filename column param : String)
  | listParameterInfo (param column : String)
  | timeseriesInfo (param column : String)
  | notBoolean
  | maximumCapMissing (filename : String)
  | paramMissing (filename param : String)
  | paramNotRecognized (filename param : String)
  | wrongColumnNumber (filename : String) (n : Nat)
  | invalidColumnName (filename column : String)
  | storageParamMissing (filename column param : String)
  | storageParamNotRecognized (filename param : String)
  | storageParamShouldBeNaN (filename column param : String)
  | storageParamIsNaNInfo (filename column param : String)
  | storageParamNaNSetZero (filename column param : String)
  | missingStorageFile (storageFilename : String)
  | fileNotRecognized (filename : String)
  | requiredFileMissing (filename : String)
  | unknownFileSkipped (filename : String)
  | noAssetsAdded (filename : String)
  | assetSummaryInfo (filename names : String)
  | knownExtraDefaultSet (group asset param : String)
deriving DecidableEq, Repr

/-- The opening-brace character, spelled by code point. -/
def lbrace : Char := Char.ofNat 123

/-- The closing-brace character, spelled by code point. -/
def rbrace : Char := Char.ofNat 125

/-- Python `c in s` for a single character `c`. Implemented over the
character list so that it computes inside the kernel (the built-in
`String.contains` does not reduce definitionally). -/
def strContains (s : String) (c : Char) : Bool := s.data.any (fun d => d = c)

/-- Remove every occurrence of one character: Python `s.replace(c, "")`. -/
def removeChar (c : Char) (l : List Char) : List Char := l.filter (fun d => !(d = c))

/-- Replace one character by another everywhere: Python `s.replace(c, d)` for
single characters. -/
def replaceChar (c d : Char) (l : List Char) : List Char :=
  l.map (fun e => if e = c then d else e)

/-- Split on a separator character, Python `str.split` semantics for a
one-character separator: splitting the empty string gives `[""]`. -/
def splitOnCharAux (c : Char) : List Char → List Char → List (List Char)
  | [], acc => [acc.reverse]
  | d :: rest, acc =>
    if d = c then acc.reverse :: splitOnCharAux c rest []
    else splitOnCharAux c rest (d :: acc)

/-- Entry point of the character-level split. -/
def splitOnChar (c : Char) (l : List Char) : List (List Char) := splitOnCharAux c l []

/-- ASCII whitespace, the characters Python's `str.strip`/`int`/`float` skip
in the inputs this repository feeds them. -/
def isSpaceChar (c : Char) : Bool := c = ' ' || c = '\t' || c = '\n' || c = '\r'

/-- Strip leading and trailing whitespace. -/
def trimChars (l : List Char) : List Char :=
  ((l.dropWhile isSpaceChar).reverse.dropWhile isSpaceChar).reverse

/-- Lower-case an ASCII letter. -/
def lowerChar (c : Char) : Char :=
  if 'A' ≤ c && c ≤ 'Z' then Char.ofNat (c.toNat + 32) else c

/-- Whether a run of characters forms a nonempty digit string. -/
def allDigits (l : List Char) : Bool :=
  decide (l ≠ []) && l.all Char.isDigit

/-- Decimal value of a digit string. -/
def digitsToNat (l : List Char) : Nat :=
  l.foldl (fun n c => n * 10 + (c.toNat - 48)) 0

/-- A modest recogniser for the mantissa of a Python float literal: digits
with at most one dot and at least one digit overall. -/
def isFloatCore (l : List Char) : Bool :=
  match splitOnChar '.' l with
  | [a] => allDigits a
  | [a, b] => (allDigits a && b.all Char.isDigit) || (a.all Char.isDigit && allDigits b)
  | _ => false

/-- Mantissa plus optional exponent part. -/
def isFloatBody (l : List Char) : Bool :=
  match splitOnChar 'e' l with
  | [a] => isFloatCore a
  | [a, b] =>
    isFloatCore a &&
      (allDigits b || (match b with
        | '+' :: r => allDigits r
        | '-' :: r => allDigits r
        | _ => false))
  | _ => false

/-- Python `float(s)` as a recogniser: `some .nanV` for NaN spellings, a
`floatRaw` carrying the trimmed text for a well-formed literal, `none` where
Python would raise `ValueError`. Only the literal shapes appearing in the
repository's csv data are relied on by any claim. -/
def pyFloatOpt (s : String) : Option JValue :=
  let t := trimChars s.data
  let low := t.map lowerChar
  if low = "nan".data || low = "+nan".data || low = "-nan".data then some JValue.nanV
  else if low = "inf".data || low = "+inf".data || low = "-inf".data
      || low = "infinity".data then
    some (JValue.floatRaw (String.mk t))
  else
    match t with
    | '+' :: r => if isFloatBody r then some (JValue.floatRaw (String.mk t)) else none
    | '-' :: r => if isFloatBody r then some (JValue.floatRaw (String.mk t)) else none
    | r => if isFloatBody r then some (JValue.floatRaw (String.mk t)) else none

/-- Python `int(s)` on a string: whitespace-trimmed decimal integer with an
optional sign. -/
def pyIntOpt (s : String) : Option Int :=
  match trimChars s.data with
  | '-' :: r => if allDigits r then some (-(digitsToNat r : Int)) else none
  | '+' :: r => if allDigits r then some ((digitsToNat r : Int)) else none
  | r => if allDigits r then some ((digitsToNat r : Int)) else none

/-- The numeric branch of `conversion` (`A1_csv_to_json.py` lines 420-426):
`value == "None"` gives Python `None`; otherwise `int(value)` is tried and, on
`ValueError`, `float(value)`; if both fail the bare `except` re-runs `float`
whose `ValueError` propagates. Non-string cells keep their numeric value
(`int` of an int or bool is itself / 0-1; `int` of NaN raises, `float` of NaN
is NaN). -/
def pyNumeric (v : JValue) : Except PyError JValue :=
  match v with
  | JValue.str s =>
    if s = "None" then Except.ok JValue.null
    else
      match pyIntOpt s with
      | some n => Except.ok (JValue.int n)
      | none =>
        match pyFloatOpt s with
        | some f => Except.ok f
        | none => Except.error PyError.valueError
  | JValue.int n => Except.ok (JValue.int n)
  | JValue.bool b => Except.ok (JValue.int (if b then 1 else 0))
  | JValue.floatRaw s => Except.ok (JValue.floatRaw s)
  | JValue.nanV => Except.ok JValue.nanV
  | JValue.null => Except.error PyError.typeError
  | JValue.arr _ => Except.error PyError.typeError
  | JValue.obj _ => Except.error PyError.typeError

/-- Strip one leading and trailing quote pair after Python's
`value.replace(chr(39), chr(34))` and model `json.loads` on the flat
string-valued dict literals (`timeseries` references) that the repository's
csv cells hold: text of the form `key:value` pairs separated by commas inside
one brace pair, all keys and values quoted strings. Anything else is a
`json.loads` failure, modelled as `ValueError` (Python's
`json.JSONDecodeError` subclasses it). -/
def stripQuotes (l : List Char) : Option (List Char) :=
  match l with
  | '"' :: rest =>
    match rest.reverse with
    | '"' :: mid => some mid.reverse
    | _ => none
  | _ => none

/-- Parse one `"k":"v"` fragment. -/
def parseFlatPair (l : List Char) : Option (String × JValue) :=
  match splitOnChar ':' (trimChars l) with
  | [k, v] =>
    match stripQuotes (trimChars k), stripQuotes (trimChars v) with
    | some k', some v' => some (String.mk k', JValue.str (String.mk v'))
    | _, _ => none
  | _ => none

/-- Model of `json.loads` restricted to flat string-valued object literals. -/
def jsonLoadsFlat (l : List Char) : Except PyError JValue :=
  match trimChars l with
  | c :: rest =>
    if c = lbrace then
      match rest.reverse with
      | d :: mid =>
        if d = rbrace then
          let body := mid.reverse
          if trimChars body = [] then Except.ok (JValue.obj [])
          else
            let parts := (splitOnChar ',' body).map parseFlatPair
            if parts.all Option.isSome then
              Except.ok (JValue.obj (parts.filterMap id))
            else Except.error PyError.valueError
        else Except.error PyError.valueError
      | [] => Except.error PyError.valueError
    else Except.error PyError.valueError
  | [] => Except.error PyError.valueError

/-- Embedding of `conversion(filename, column_dict, row, i, column, value)`
(`A1_csv_to_json.py` lines 385-429). `rowUnit` is `row["unit"]`. Returns the
updated `column_dict` together with the diagnostics the call logged; a raised
exception (only possible from the numeric parse or a malformed balanced brace
literal) goes to the error channel. -/
def conversion (filename : String) (columnDict : Dict) (rowUnit : String)
    (i : String) (column : String) (value : JValue) :
    Except PyError (Dict × List Diag) :=
  match value with
  | JValue.str s =>
    if strContains s lbrace || strContains s rbrace then
      if !(strContains s lbrace) || !(strContains s rbrace) then
        Except.ok (columnDict, [Diag.unbalancedBrace filename column i])
      else
        match jsonLoadsFlat (replaceChar (Char.ofNat 39) (Char.ofNat 34) s.data) with
        | Except.error e => Except.error e
        | Except.ok valueDict =>
          Except.ok (dictUpdate columnDict i valueDict, [Diag.timeseriesInfo i column])
    else if rowUnit = "str" then
      Except.ok (dictUpdate columnDict i (JValue.str s), [])
    else if rowUnit = "bool" then
      if s = "True" || s = "true" || s = "t" then
        Except.ok
          (dictUpdate columnDict i
            (JValue.obj [("value", JValue.bool true), ("unit", JValue.str rowUnit)]), [])
      else if s = "False" || s = "false" || s = "F" then
        Except.ok
          (dictUpdate columnDict i
            (JValue.obj [("value", JValue.bool false), ("unit", JValue.str rowUnit)]), [])
      else
        Except.ok
          (dictUpdate columnDict i
            (JValue.obj [("value", JValue.str s), ("unit", JValue.str rowUnit)]),
          [Diag.notBoolean])
    else
      match pyNumeric (JValue.str s) with
      | Except.error e => Except.error e
      | Except.ok v' =>
        Except.ok
          (dictUpdate columnDict i
            (JValue.obj [("value", v'), ("unit", JValue.str rowUnit)]), [])
  | other =>
    if rowUnit = "str" then
      Except.ok (dictUpdate columnDict i other, [])
    else if rowUnit = "bool" then
      Except.ok
        (dictUpdate columnDict i
          (JValue.obj [("value", other), ("unit", JValue.str rowUnit)]),
        [Diag.notBoolean])
    else
      match pyNumeric other with
      | Except.error e => Except.error e
      | Except.ok v' =>
        Except.ok
          (dictUpdate columnDict i
            (JValue.obj [("value", v'), ("unit", JValue.str rowUnit)]), [])

/-- Whether the first character list starts the second. -/
def startsWithChars : List Char → List Char → Bool
  | [], _ => true
  | _ :: _, [] => false
  | a :: as, b :: bs => a = b && startsWithChars as bs

/-- Whether the first character list occurs inside the second (Python's
substring test `pat in s`). -/
def occursInChars (pat : List Char) : List Char → Bool
  | [] => startsWithChars pat []
  | b :: bs => startsWithChars pat (b :: bs) || occursInChars pat bs

/-- Python `"value" in entry` where `entry` is `column_dict[i]`
(`A1_csv_to_json.py` line 331): key membership on a dict, substring test on a
string, elementwise equality on a list, `TypeError` on anything else. -/
def pyContainsValueKey (v : JValue) : Except PyError Bool :=
  match v with
  | JValue.obj kvs => Except.ok (dictHasKey kvs "value")
  | JValue.str s => Except.ok (occursInChars "value".data s.data)
  | JValue.arr xs =>
    Except.ok (xs.any (fun x => match x with
      | JValue.str t => t = "value"
      | _ => false))
  | _ => Except.error PyError.typeError

/-- Python `entry["value"]` on the dict already known to hold the key
(`A1_csv_to_json.py` line 333); indexing anything that is not a dict raises
`TypeError`. -/
def pyIndexValue (v : JValue) : Except PyError JValue :=
  match v with
  | JValue.obj kvs =>
    match dictLookup kvs "value" with
    | some x => Except.ok x
    | none => Except.error PyError.keyError
  | _ => Except.error PyError.typeError

/-- The `for item in range(0, len(value_list))` loop of
`create_json_from_csv` (`A1_csv_to_json.py` lines 326-340): each sub-token is
run through `conversion` under the same row unit, then the slot of
`value_list` is replaced by the coerced value (`column_dict[i]["value"]` for a
scalar under a non-`"str"` unit, the whole entry otherwise). Returns the
final `column_dict`, the accumulated diagnostics and the rewritten list. -/
def listItemsLoop (filename : String) (rowUnit i column : String) :
    List String → Dict → List Diag → Except PyError (Dict × List Diag × List JValue)
  | [], d, ds => Except.ok (d, ds, [])
  | s :: rest, d, ds =>
    match conversion filename d rowUnit i column (JValue.str s) with
    | Except.error e => Except.error e
    | Except.ok (d', ds') =>
      match dictLookup d' i with
      | none => Except.error PyError.keyError
      | some entry =>
        if rowUnit = "str" then
          match listItemsLoop filename rowUnit i column rest d' (ds ++ ds') with
          | Except.error e => Except.error e
          | Except.ok (d'', ds'', items) => Except.ok (d'', ds'', entry :: items)
        else
          match pyContainsValueKey entry with
          | Except.error e => Except.error e
          | Except.ok b =>
            if b then
              match pyIndexValue entry with
              | Except.error e => Except.error e
              | Except.ok v =>
                match listItemsLoop filename rowUnit i column rest d' (ds ++ ds') with
                | Except.error e => Except.error e
                | Except.ok (d'', ds'', items) => Except.ok (d'', ds'', v :: items)
            else
              match listItemsLoop filename rowUnit i column rest d' (ds ++ ds') with
              | Except.error e => Except.error e
              | Except.ok (d'', ds'', items) => Except.ok (d'', ds'', entry :: items)

/-- Embedding of the per-cell classification step of `create_json_from_csv`
(`A1_csv_to_json.py` lines 311-354): a string cell containing a bracket
character on either side is treated as a list literal — with a warning and
no record entry at all when one of the two brackets is missing — and any
other cell goes straight to `conversion`. -/
def processCell (filename : String) (columnDict : Dict) (rowUnit : String)
    (i : String) (column : String) (cell : JValue) :
    Except PyError (Dict × List Diag) :=
  match cell with
  | JValue.str s =>
    if strContains s '[' || strContains s ']' then
      if !(strContains s '[') || !(strContains s ']') then
        Except.ok (columnDict, [Diag.unbalancedBracket filename column i])
      else
        let valueString := removeChar ']' (removeChar '[' s.data)
        let valueList := (splitOnChar ';' valueString).map String.mk
        match listItemsLoop filename rowUnit i column valueList columnDict [] with
        | Except.error e => Except.error e
        | Except.ok (d', ds, items) =>
          if rowUnit = "str" then
            Except.ok (dictUpdate d' i (JValue.arr items),
              ds ++ [Diag.listParameterInfo i column])
          else
            Except.ok
              (dictUpdate d' i
                (JValue.obj [("value", JValue.arr items), ("unit", JValue.str rowUnit)]),
              ds ++ [Diag.listParameterInfo i column])
    else
      conversion filename columnDict rowUnit i column cell
  | _ => conversion filename columnDict rowUnit i column cell

/-- One csv table as loaded by `pd.read_csv` with `index_col=0`: the row
index, the asset column names (left to right, without the `"unit"` column),
the `"unit"` column (taken as strings — it is a string in every csv of the
repository), and the remaining cells; a (row, column) pair that carries no
entry is a pandas NaN (`JValue.nanV`). -/
structure RawTable where
  index : List String
  assetColumns : List String
  units : List (String × String)
  cells : List (String × String × JValue)

/-- The `"unit"` entry of one row. -/
def unitOf (t : RawTable) (i : String) : String :=
  ((t.units.find? (fun kv => kv.1 = i)).map (fun kv => kv.2)).getD ""

/-- The cell of one row in one asset column. -/
def tableCell (t : RawTable) (i column : String) : JValue :=
  ((t.cells.find? (fun c => c.1 = i && c.2.1 = column)).map (fun c => c.2.2)).getD
    JValue.nanV

/-- One row of a table as seen while iterating one asset column:
`(i, row["unit"], row[column])`. -/
structure Row where
  name : String
  unit : String
  cell : JValue

/-- The rows of one asset column, in index order. -/
def rowsFor (t : RawTable) (column : String) : List Row :=
  t.index.map (fun i => ⟨i, unitOf t i, tableCell t i column⟩)

/-- Python `pd.isnull` on a cell: true on `None` and on float NaN. -/
def isNullCell : JValue → Bool
  | JValue.null => true
  | JValue.nanV => true
  | _ => false

/-- The `if i == "label"` accumulation of `create_json_from_csv`
(`A1_csv_to_json.py` lines 308-309): string concatenation, so a non-string
label cell would raise `TypeError`. -/
def labelStep (acc : String) (i : String) (cell : JValue) : Except PyError String :=
  if i = "label" then
    match cell with
    | JValue.str s => Except.ok (acc ++ s ++ ", ")
    | _ => Except.error PyError.typeError
  else Except.ok acc

/-- The `for i, row in df.iterrows()` loop over one asset column
(`A1_csv_to_json.py` lines 307-354): label accumulation followed by the
per-cell classification, threading `column_dict`. -/
def processRows (filename column : String) :
    List Row → Dict → String → Except PyError (Dict × String × List Diag)
  | [], d, acc => Except.ok (d, acc, [])
  | r :: rest, d, acc =>
    match labelStep acc r.name r.cell with
    | Except.error e => Except.error e
    | Except.ok acc' =>
      match processCell filename d r.unit r.name column r.cell with
      | Except.error e => Except.error e
      | Except.ok (d', ds) =>
        match processRows filename column rest d' acc' with
        | Except.error e => Except.error e
        | Except.ok (d'', acc'', ds') => Except.ok (d'', acc'', ds ++ ds')

/-- The five storage-specific parameter names hard-coded at
`A1_csv_to_json.py` lines 267-273. -/
def storageSpecificParams : List String :=
  ["c_rate", "opex_var", "soc_initial", "soc_max", "soc_min"]

/-- The role-specific required parameters of a storage sub-table column
(`A1_csv_to_json.py` lines 245-255); `none` for an invalid column name, where
the source only logs an error and leaves the local `extra` untouched. -/
def roleExtraParams (column : String) : Option (List String) :=
  if column = "storage capacity" then some ["soc_initial", "soc_max", "soc_min"]
  else if column = "input power" then some ["c_rate", "opex_var"]
  else if column = "output power" then some ["c_rate", "opex_var"]
  else none

/-- The per-cell mutation of the storage branch (`A1_csv_to_json.py` lines
263-304): a parameter outside the role's effective set is forced to the
string `"NaN"` (with a warning when it is not a recognised storage parameter,
or when it held a non-null value); a parameter inside the effective set whose
cell is null is set to `0` with a warning. -/
def storagePrepCell (filename column : String) (columnParameters : List String)
    (i : String) (v : JValue) : JValue × List Diag :=
  if i ∈ columnParameters then
    if isNullCell v then
      (JValue.int 0, [Diag.storageParamNaNSetZero filename column i])
    else (v, [])
  else
    if i ∈ storageSpecificParams then
      if !(isNullCell v) then
        (JValue.str "NaN", [Diag.storageParamShouldBeNaN filename column i])
      else (v, [Diag.storageParamIsNaNInfo filename column i])
    else
      (JValue.str "NaN", [Diag.storageParamNotRecognized filename i])

/-- The row loop of the storage branch applied to one column's rows. -/
def storagePrepRows (filename column : String) (columnParameters : List String) :
    List Row → List Row × List Diag
  | [] => ([], [])
  | r :: rest =>
    let p := storagePrepCell filename column columnParameters r.name r.cell
    let q := storagePrepRows filename column columnParameters rest
    (⟨r.name, r.unit, p.1⟩ :: q.1, p.2 ++ q.2)

/-- The `for i in set(column_parameters) - set(df_copy.index)` warnings
(`A1_csv_to_json.py` lines 258-262), in a deterministic stand-in for Python's
set iteration order. -/
def storageMissingWarnings (filename column : String) (columnParameters : List String)
    (index : List String) : List Diag :=
  ((columnParameters.dedup).filter (fun p => p ∉ index)).map
    (fun p => Diag.storageParamMissing filename column p)

/-- One storage column once its effective parameter set is known: missing
warnings, cell mutations, the `df_copy[column].notna()` filter (note that
cells rewritten to the string `"NaN"` are NOT dropped by `notna`), then the
ordinary row loop; the resulting `column_dict` is stored under the column
name. -/
def storageColumnStep (filename : String) (columnParameters : List String)
    (column : String) (t : RawTable) (sd : Dict) (acc : String) :
    Except PyError (Dict × String × List Diag) :=
  let missDiags := storageMissingWarnings filename column columnParameters t.index
  let prep := storagePrepRows filename column columnParameters (rowsFor t column)
  let kept := prep.1.filter (fun r => !(isNullCell r.cell))
  match processRows filename column kept [] acc with
  | Except.error e => Except.error e
  | Except.ok (colDict, acc', cds) =>
    Except.ok (dictUpdate sd column (JValue.obj colDict), acc',
      missDiags ++ prep.2 ++ cds)

/-- The `for column in df_copy` loop with `storage == True`
(`A1_csv_to_json.py` lines 231-306): the column-count check, the role lookup
with Python's binding subtlety for the local `extra` (an invalid column name
leaves the previous column's value in place, and raises `NameError` when no
previous column bound it), then `storageColumnStep`. -/
def storageColumnsLoop (filename : String) (params' : List String) (t : RawTable) :
    List String → Option (List String) → Dict → String → List Diag →
    Except PyError (Dict × String × List Diag)
  | [], _, sd, acc, ds => Except.ok (sd, acc, ds)
  | column :: rest, prevExtra, sd, acc, ds =>
    let n := t.assetColumns.length + 1
    let countDiags := if n < 4 || 4 < n then [Diag.wrongColumnNumber filename n] else []
    match roleExtraParams column with
    | some e =>
      match storageColumnStep filename (params' ++ e) column t sd acc with
      | Except.error err => Except.error err
      | Except.ok (sd', acc', ds') =>
        storageColumnsLoop filename params' t rest (some e) sd' acc'
          (ds ++ countDiags ++ ds')
    | none =>
      match prevExtra with
      | none => Except.error PyError.nameError
      | some e =>
        match storageColumnStep filename (params' ++ e) column t sd acc with
        | Except.error err => Except.error err
        | Except.ok (sd', acc', ds') =>
          storageColumnsLoop filename params' t rest (some e) sd' acc'
            (ds ++ countDiags ++ [Diag.invalidColumnName filename column] ++ ds')

/-- The `maximumCap` handling of `create_json_from_csv` (`A1_csv_to_json.py`
lines 186-195). Python executes `parameters.append("maximumCap")`, an
in-place mutation of the caller-supplied list, so the first component (the
effective parameter set used for this load) and the second component (the
state of the caller's `parameters` object after the call — the same list
object) are equal by construction; when the parameter is absent only a
warning is logged. -/
def maximumCapCheck (parameters : List String) (index : List String)
    (filename : String) : List String × List String × List Diag :=
  if "maximumCap" ∈ index then
    (parameters ++ ["maximumCap"], parameters ++ ["maximumCap"], [])
  else
    (parameters, parameters, [Diag.maximumCapMissing filename])

/-- The non-storage parameter check of `create_json_from_csv`
(`A1_csv_to_json.py` lines 198-219): the symmetric difference of the required
parameter list and the table index, each element logged as missing when it is
a required name and as not recognised otherwise. All output is diagnostics —
the function cannot fail — modelling that the check never halts processing.
A deterministic order stands in for Python's set iteration order. -/
def checkParameters (filename : String) (parameters index : List String) : List Diag :=
  let extra := (parameters.dedup.filter (fun p => p ∉ index))
    ++ (index.dedup.filter (fun p => p ∉ parameters))
  extra.map (fun i =>
    if i ∈ parameters then Diag.paramMissing filename i
    else Diag.paramNotRecognized filename i)

/-- Drop the last `n` characters of a string: Python `s[:-n]` for `n > 0`. -/
def dropLastChars (n : Nat) (s : String) : String :=
  String.mk (s.data.take (s.data.length - n))

/-- Embedding of `create_json_from_csv(.., storage=True)` on one loaded
storage sub-table (`A1_csv_to_json.py` lines 131-381 with `storage is True`:
the separator search is behind us once the table is given, the non-storage
parameter check is skipped, and the result is `single_dict` without a
group-name wrapper). -/
def createJsonFromCsvStorage (t : RawTable) (parameters : List String)
    (filename : String) : Except PyError (Dict × List Diag) :=
  let capRes := maximumCapCheck parameters t.index filename
  let emptyDiag :=
    if t.assetColumns.length + 1 = 1 then [Diag.noAssetsAdded filename] else []
  match storageColumnsLoop filename capRes.1 t t.assetColumns none [] ""
      (capRes.2.2 ++ emptyDiag) with
  | Except.error e => Except.error e
  | Except.ok (sd, acc, ds) =>
    Except.ok (sd, ds ++ [Diag.assetSummaryInfo filename (dropLastChars 2 acc)])

/-- The hard-coded common parameter list of `add_storage_components`
(`A1_csv_to_json.py` lines 450-460). -/
def storageCommonParams : List String :=
  ["age_installed", "capex_fix", "capex_var", "efficiency", "installedCap",
   "label", "lifetime", "opex_fix", "unit"]

/-- Embedding of `add_storage_components(storage_filename, input_directory)`
(`A1_csv_to_json.py` lines 432-467). The input directory is modelled as the
association of storage file names to their loaded tables. When the file does
not exist the source only calls `logging.error` and falls off the end of the
function, returning Python `None` — there is no raised exception and no
typed error here; the first component carries the logged diagnostic and the
second is `none` exactly in that case. -/
def addStorageComponents (tables : List (String × RawTable))
    (storageFilename : String) :
    List Diag × Option (Except PyError (Dict × List Diag)) :=
  match tables.find? (fun kv => kv.1 = storageFilename) with
  | none => ([Diag.missingStorageFile storageFilename], none)
  | some kv =>
    ([], some (createJsonFromCsvStorage kv.2 storageCommonParams storageFilename))

/-- The caller's `single_dict[column].update(storage_dict)`
(`A1_csv_to_json.py` line 362): updating with the `None` that
`add_storage_components` returns for a missing file raises `TypeError`. -/
def mergeStorageDict (columnDict : Dict)
    (res : Option (Except PyError (Dict × List Diag))) :
    Except PyError (Dict × List Diag) :=
  match res with
  | none => Except.error PyError.typeError
  | some (Except.error e) => Except.error e
  | some (Except.ok (sd, sds)) => Except.ok (dictMerge columnDict sd, sds)

/-- The column loop of `create_json_from_csv` for the `energyStorage` table
(`storage is False`, `filename == "energyStorage"`, `A1_csv_to_json.py` lines
231-362): the ordinary row loop per column followed by the storage sub-table
resolution keyed on the `storage_filename` cell with its `[:-4]` suffix
strip. An uncaught exception from the merge aborts the whole loop. -/
def energyStorageColumnsLoop (tables : List (String × RawTable)) (t : RawTable) :
    List String → Dict → String → List Diag →
    Except PyError (Dict × String × List Diag)
  | [], sd, acc, ds => Except.ok (sd, acc, ds)
  | column :: rest, sd, acc, ds =>
    match processRows "energyStorage" column (rowsFor t column) [] acc with
    | Except.error e => Except.error e
    | Except.ok (colDict, acc', cds) =>
      match tableCell t "storage_filename" column with
      | JValue.str s =>
        let sres := addStorageComponents tables (dropLastChars 4 s)
        match mergeStorageDict colDict sres.2 with
        | Except.error e => Except.error e
        | Except.ok (colDict', sds) =>
          energyStorageColumnsLoop tables t rest
            (dictUpdate sd column (JValue.obj colDict')) acc'
            (ds ++ cds ++ sres.1 ++ sds)
      | _ => Except.error PyError.typeError

/-- Embedding of `create_json_from_csv` on the `energyStorage` table itself
(`storage=False`): `maximumCap` handling, the non-storage parameter check,
the column loop with storage resolution, and the `{filename: single_dict}`
wrapper of the non-singleton branch. -/
def createJsonFromCsvEnergyStorage (tables : List (String × RawTable))
    (t : RawTable) (parameters : List String) : Except PyError (Dict × List Diag) :=
  let capRes := maximumCapCheck parameters t.index "energyStorage"
  let checkDiags := checkParameters "energyStorage" capRes.1 t.index
  let emptyDiag :=
    if t.assetColumns.length + 1 = 1 then [Diag.noAssetsAdded "energyStorage"] else []
  match energyStorageColumnsLoop tables t t.assetColumns [] ""
      (capRes.2.2 ++ checkDiags ++ emptyDiag) with
  | Except.error e => Except.error e
  | Except.ok (sd, acc, ds) =>
    Except.ok ([("energyStorage", JValue.obj sd)],
      ds ++ [Diag.assetSummaryInfo "energyStorage" (dropLastChars 2 acc)])

/-- Projection: the produced dictionary of a group run, `none` on a raised
exception. -/
def okDict (r : Except PyError (Dict × List Diag)) : Option Dict :=
  match r with
  | Except.ok p => some p.1
  | Except.error _ => none

/-- Projection: the accumulated diagnostics of a group run, `none` on a
raised exception. -/
def okDiags (r : Except PyError (Dict × List Diag)) : Option (List Diag) :=
  match r with
  | Except.ok p => some p.2
  | Except.error _ => none

/-- The output artifact store of `create_input_json`: the json files present
in the input directory, path to serialized content. -/
structure FS where
  files : List (String × String)

/-- Python `os.path.exists`. -/
def fsExists (fs : FS) (path : String) : Bool := (mapGet fs.files path).isSome

/-- Writing a file: replace the content under an existing path, else append. -/
def fsWrite (fs : FS) (path content : String) : FS := ⟨mapSet fs.files path content⟩

/-- Reading a file's content, if present. -/
def fsRead (fs : FS) (path : String) : Option String := mapGet fs.files path

/-- Python `os.path.join` for the one shape used here. -/
def pathJoin (a b : String) : String := a ++ "/" ++ b

/-- Embedding of `create_input_json(input_directory)` (`A1_csv_to_json.py`
lines 41-128): the pre-flight `os.path.exists` check raising
`FileExistsError`, then the body — reading every csv of the directory and
building `input_json`, abstracted as the `buildJson` argument since no claim
depends on its value — and the single `json.dump` at the end. The returned
`FS` is the state of the directory after the call (unchanged when the call
raises, since the check precedes every write); `csvFname` is the `CSV_FNAME`
constant, whose defining module is not among the sources, passed as an
argument. -/
def createInputJson (csvFname : String) (buildJson : FS → String → String)
    (fs : FS) (inputDirectory : String) : FS × Except PyError String :=
  let outputFilename := pathJoin inputDirectory csvFname
  if fsExists fs outputFilename then
    (fs, Except.error PyError.fileExistsError)
  else
    (fsWrite fs outputFilename (buildJson fs inputDirectory), Except.ok outputFilename)

/-- A storage sub-table whose `"storage capacity"` column holds `soc_min`
with an empty (NaN) cell — the shape of the spec's example for C2. -/
def storageCapacityNaNTable : RawTable :=
  { index := ["label", "soc_min"]
    assetColumns := ["storage capacity"]
    units := [("label", "str"), ("soc_min", "factor")]
    cells := [("label", "storage capacity", JValue.str "Battery"),
              ("soc_min", "storage capacity", JValue.nanV)] }

/-- A storage sub-table whose row index lacks `soc_min` entirely. -/
def storageCapacityMissingRowTable : RawTable :=
  { index := ["label"]
    assetColumns := ["storage capacity"]
    units := [("label", "str")]
    cells := [("label", "storage capacity", JValue.str "Battery")] }

/-- An `energyStorage` table with two asset columns, each referencing a
storage sub-table file. -/
def energyStorageExampleTable : RawTable :=
  { index := ["label", "storage_filename"]
    assetColumns := ["storage_01", "storage_02"]
    units := [("label", "str"), ("storage_filename", "str")]
    cells := [("label", "storage_01", JValue.str "Battery"),
              ("storage_filename", "storage_01", JValue.str "storage_01.csv"),
              ("label", "storage_02", JValue.str "Battery 2"),
              ("storage_filename", "storage_02", JValue.str "storage_02.csv")] }

/-- One entry of `KNOWN_EXTRA_PARAMETERS` (its defining `constants` module is
not among the sources, so the table is passed as an argument): the documented
unit and default value of a known-extra parameter. -/
structure KnownExtraInfo where
  unitVal : JValue
  defaultVal : JValue

/-- The node `{UNIT: ..., VALUE: ...}` inserted for an absent known-extra
parameter (`utils/__init__.py` lines 227-230 and 239-242). -/
def knownExtraNode (info : KnownExtraInfo) : JValue :=
  JValue.obj [("unit", info.unitVal), ("value", info.defaultVal)]

/-- The collected missing parameters: group name to either a list of names or
Python `None` (a whole required group whose reference sub-list is `None`). -/
abbrev MissingMap := List (String × Option (List String))

/-- The collected extra parameters: group name to names. -/
abbrev ExtraMap := List (String × List String)

/-- `param_list = missing_parameters.get(mp, []); param_list.append(sp);
missing_parameters[mp] = param_list` (`utils/__init__.py` lines 252-254).
A stored Python `None` cannot be reached here (the final loop that stores
them runs afterwards); that case is left unchanged. -/
def appendMissing (m : MissingMap) (mp sp : String) : MissingMap :=
  match mapGet m mp with
  | none => mapSet m mp (some [sp])
  | some (some l) => mapSet m mp (some (l ++ [sp]))
  | some none => m

/-- `param_list = extra_parameters.get(mp, []); if sp not in param_list:
param_list.append(sp); extra_parameters[mp] = param_list`
(`utils/__init__.py` lines 257-260). -/
def appendExtra (m : ExtraMap) (mp sp : String) : ExtraMap :=
  let l := (mapGet m mp).getD []
  if sp ∈ l then m else mapSet m mp (l ++ [sp])

/-- `main_parameters[mp][sp] = v` for a non-asset group
(`utils/__init__.py` line 227); the group value is a dict whenever this line
is reached (a non-dict is left untouched, an unreachable case). -/
def updateGroupParam : Dict → String → String → JValue → Dict
  | [], _, _, _ => []
  | kv :: rest, mp, sp, v =>
    if kv.1 = mp then
      (mp, match kv.2 with
        | JValue.obj kvs => JValue.obj (mapSet kvs sp v)
        | other => other) :: rest
    else kv :: updateGroupParam rest mp sp v

/-- `main_parameters[mp][k][sp] = v` inside one asset group's dict. -/
def updateAssetInner : Dict → String → String → JValue → Dict
  | [], _, _, _ => []
  | akv :: rest, k, sp, v =>
    if akv.1 = k then
      (k, match akv.2 with
        | JValue.obj kvs => JValue.obj (mapSet kvs sp v)
        | o => o) :: rest
    else akv :: updateAssetInner rest k sp v

/-- `main_parameters[mp][k][sp] = v` for an asset group
(`utils/__init__.py` line 239). -/
def updateAssetParam : Dict → String → String → String → JValue → Dict
  | [], _, _, _, _ => []
  | kv :: rest, mp, k, sp, v =>
    if kv.1 = mp then
      (mp, match kv.2 with
        | JValue.obj assets => JValue.obj (updateAssetInner assets k sp v)
        | o => o) :: rest
    else kv :: updateAssetParam rest mp k sp v

/-- The working state of `compare_input_parameters_with_reference`: the
(possibly mutated) main parameter dict, the missing and extra maps, and the
logged warnings. -/
abbrev CompareState := Dict × MissingMap × ExtraMap × List Diag

/-- The body of `for sp in not_matching_params` (`utils/__init__.py` lines
220-260): a required sub-parameter that is a known extra is — under
`set_default` — written into the caller's dict with its documented default
node instead of being reported missing; otherwise it is recorded missing; a
provided-but-not-required one is recorded extra. -/
def processSubParam (reqList : List String)
    (knownExtra : List (String × KnownExtraInfo)) (setDefault : Bool)
    (mp k : String) (st : CompareState) (sp : String) : CompareState :=
  let main := st.1
  let miss := st.2.1
  let ext := st.2.2.1
  let ds := st.2.2.2
  if sp ∈ reqList then
    match knownExtra.find? (fun kv => kv.1 = sp), setDefault with
    | some info, true =>
      if k = "non-asset" then
        (updateGroupParam main mp sp (knownExtraNode info.2), miss, ext,
          ds ++ [Diag.knownExtraDefaultSet mp k sp])
      else
        (updateAssetParam main mp k sp (knownExtraNode info.2), miss, ext,
          ds ++ [Diag.knownExtraDefaultSet mp k sp])
    | _, _ => (main, appendMissing miss mp sp, ext, ds)
  else
    (main, miss, appendExtra ext mp sp, ds)

/-- `set(sub_parameters) ^ set(required_parameters[mp])` in a deterministic
stand-in for Python's set iteration order. -/
def symmetricDiff (provided required : List String) : List String :=
  (provided.dedup.filter (fun p => p ∉ required))
    ++ (required.dedup.filter (fun p => p ∉ provided))

/-- The `for k in sub_params` loop for one group: each asset's (or the
`"non-asset"` pseudo-asset's) provided names are compared against the
reference list and every mismatch runs through `processSubParam`. -/
def processSubParams (reqOpt : Option (List String))
    (knownExtra : List (String × KnownExtraInfo)) (setDefault : Bool)
    (mp : String) : List (String × List String) → CompareState → CompareState
  | [], st => st
  | (k, subNames) :: rest, st =>
    let st' :=
      match reqOpt with
      | some reqList =>
        (symmetricDiff subNames reqList).foldl
          (processSubParam reqList knownExtra setDefault mp k) st
      | none => st
    processSubParams reqOpt knownExtra setDefault mp rest st'

/-- The per-asset provided names: `set(sub_parameters)` is the key set when
the asset's value is a dict (the only shape the repository's data has; any
other shape contributes no names). -/
def assetProvidedNames (v : JValue) : List String :=
  match v with
  | JValue.obj kvs => dictKeys kvs
  | _ => []

/-- One iteration of `for mp in main_parameters` (`utils/__init__.py` lines
172-260), threading the mutable state. A required group that is in neither
hard-coded group list leaves Python's local `sub_params` unbound —
`NameError` — which the actual constants never trigger. -/
def processGroup (required : List (String × Option (List String)))
    (knownExtra : List (String × KnownExtraInfo))
    (nonAssetGroups assetGroups : List String) (setDefault : Bool)
    (st : CompareState) (mp : String) : Except PyError CompareState :=
  let main := st.1
  match mapGet required mp with
  | none =>
    Except.ok (main, st.2.1, mapSet st.2.2.1 mp [], st.2.2.2)
  | some reqOpt =>
    if mp ∈ nonAssetGroups then
      match dictLookup main mp with
      | some (JValue.obj kvs) =>
        Except.ok (processSubParams reqOpt knownExtra setDefault mp
          [("non-asset", dictKeys kvs)] st)
      | _ => Except.error PyError.typeError
    else if mp ∈ assetGroups then
      match dictLookup main mp with
      | some (JValue.obj assets) =>
        Except.ok (processSubParams reqOpt knownExtra setDefault mp
          (assets.map (fun akv => (akv.1, assetProvidedNames akv.2))) st)
      | _ => Except.error PyError.typeError
    else Except.error PyError.nameError

/-- The group loop, over the key list of the original dict. -/
def processGroups (required : List (String × Option (List String)))
    (knownExtra : List (String × KnownExtraInfo))
    (nonAssetGroups assetGroups : List String) (setDefault : Bool) :
    List String → CompareState → Except PyError CompareState
  | [], st => Except.ok st
  | mp :: rest, st =>
    match processGroup required knownExtra nonAssetGroups assetGroups setDefault
        st mp with
    | Except.error e => Except.error e
    | Except.ok st' =>
      processGroups required knownExtra nonAssetGroups assetGroups setDefault
        rest st'

/-- The final `for mp in required_parameters.keys()` loop
(`utils/__init__.py` lines 262-265): a required group that is absent from the
provided dict is recorded missing with its whole reference value. -/
def addAbsentGroups (mainKeys : List String) :
    List (String × Option (List String)) → MissingMap → MissingMap
  | [], miss => miss
  | (mp, reqOpt) :: rest, miss =>
    if mp ∈ mainKeys then addAbsentGroups mainKeys rest miss
    else addAbsentGroups mainKeys rest (mapSet miss mp reqOpt)

/-- Embedding of `compare_input_parameters_with_reference`
(`utils/__init__.py` lines 120-276) specialised to the json path with
`folder_path` already a dict (the first branch of the source). The reference
tables `REQUIRED_MVS_PARAMETERS[ext]` and `KNOWN_EXTRA_PARAMETERS` and the
two hard-coded group-name lists come from a `constants` module that is not
among the sources; they are passed as arguments. With `flag_missing`,
`warn_missing_parameters` raises `MissingParameterError` exactly when the
missing map is nonempty. -/
def compareInputParametersWithReference
    (required : List (String × Option (List String)))
    (knownExtra : List (String × KnownExtraInfo))
    (nonAssetGroups assetGroups : List String)
    (mainParameters : Dict) (setDefault flagMissing : Bool) :
    Except PyError CompareState :=
  match processGroups required knownExtra nonAssetGroups assetGroups setDefault
      (dictKeys mainParameters) (mainParameters, [], [], []) with
  | Except.error e => Except.error e
  | Except.ok st =>
    let miss := addAbsentGroups (dictKeys st.1) required st.2.1
    if flagMissing && decide (miss ≠ []) then
      Except.error PyError.missingParameterError
    else
      Except.ok (st.1, miss, st.2.2.1, st.2.2.2)

/-- Structural well-formedness of an MVS parameter dict as
`compare_input_parameters_with_reference` presupposes it: every group value
is a dict (the json layer produces exactly this shape). -/
def allGroupsAreDicts (d : Dict) : Bool :=
  d.all (fun kv => match kv.2 with
    | JValue.obj _ => true
    | _ => false)

/-- Every provided group that is required belongs to one of the two
hard-coded group-kind lists of the source (true of the actual
`REQUIRED_MVS_PARAMETERS`; a group outside both lists would leave Python's
`sub_params` unbound). -/
def groupKindsCover (required : List (String × Option (List String)))
    (nonAssetGroups assetGroups mainKeys : List String) : Bool :=
  mainKeys.all (fun p =>
    !(mapGet required p).isSome
      || (decide (p ∈ nonAssetGroups) || decide (p ∈ assetGroups)))

/-- A nested Python dict with integer leaves, the shape of the
`set_nested_value` doctest. -/
inductive NVal where
  | leaf (n : Int)
  | dict (entries : List (String × NVal))

/-- The `keys` argument of `set_nested_value`/`get_nested_value`: a tuple of
keys, or any non-tuple value (which raises `TypeError` in the source). -/
inductive KeysArg where
  | tup (ks : List String)
  | notTuple

/-- The recursion of `set_nested_value` (`utils/__init__.py` lines 333-342)
once the tuple is in hand. The source copies `dct` with `copy.deepcopy` and
assigns into the copy only, so the function is pure: the input is never
mutated on any path, success or error. Indexing a non-dict raises
`TypeError`; a missing intermediate key raises `KeyError`; assignment of the
final key follows Python dict semantics (it would add an absent key). -/
def setNestedValueGo (value : NVal) : NVal → List String → Except PyError NVal
  | _, [] => Except.error PyError.valueError
  | NVal.dict es, [k] => Except.ok (NVal.dict (mapSet es k value))
  | NVal.leaf _, [_] => Except.error PyError.typeError
  | NVal.dict es, k :: k2 :: rest =>
    match mapGet es k with
    | none => Except.error PyError.keyError
    | some sub =>
      match setNestedValueGo value sub (k2 :: rest) with
      | Except.error e => Except.error e
      | Except.ok sub' => Except.ok (NVal.dict (mapSet es k sub'))
  | NVal.leaf _, _ :: _ :: _ => Except.error PyError.typeError

/-- Embedding of `set_nested_value(dct, value, keys)` (`utils/__init__.py`
lines 311-345): `TypeError` when `keys` is not a tuple, `ValueError` on the
empty tuple, otherwise the recursive copy-and-assign. -/
def set_nested_value (dct : NVal) (value : NVal) (keys : KeysArg) :
    Except PyError NVal :=
  match keys with
  | KeysArg.tup ks => setNestedValueGo value dct ks
  | KeysArg.notTuple => Except.error PyError.typeError

/-- The recursion of `get_nested_value` (`utils/__init__.py` lines 368-379). -/
def getNestedValueGo : NVal → List String → Except PyError NVal
  | _, [] => Except.error PyError.valueError
  | NVal.dict es, [k] =>
    match mapGet es k with
    | some v => Except.ok v
    | none => Except.error PyError.keyError
  | NVal.leaf _, [_] => Except.error PyError.typeError
  | NVal.dict es, k :: k2 :: rest =>
    match mapGet es k with
    | some sub => getNestedValueGo sub (k2 :: rest)
    | none => Except.error PyError.keyError
  | NVal.leaf _, _ :: _ :: _ => Except.error PyError.typeError

/-- Embedding of `get_nested_value(dct, keys)` (`utils/__init__.py` lines
348-379). -/
def get_nested_value (dct : NVal) (keys : KeysArg) : Except PyError NVal :=
  match keys with
  | KeysArg.tup ks => getNestedValueGo dct ks
  | KeysArg.notTuple => Except.error PyError.typeError

/-- Whether the first key path is an initial segment of the second. Two
paths with neither an initial segment of the other address disjoint parts of
a nested dict. -/
def isInitialSegment : List String → List String → Bool
  | [], _ => true
  | _ :: _, [] => false
  | a :: as, b :: bs => (a = b) && isInitialSegment as bs

/-- The nested dict of the `set_nested_value`/`get_nested_value` doctests:
`dict(a=dict(a1=1, a2=2), b=dict(b1=dict(b11=11, b12=dict(b121=121))))`. -/
def doctestNested : NVal :=
  NVal.dict
    [("a", NVal.dict [("a1", NVal.leaf 1), ("a2", NVal.leaf 2)]),
     ("b", NVal.dict
        [("b1", NVal.dict
            [("b11", NVal.leaf 11),
             ("b12", NVal.dict [("b121", NVal.leaf 121)])])])]

/-- Whether a nonempty key path leads through nested dicts down to an
existing final entry. -/
def validPath : NVal → List String → Bool
  | _, [] => false
  | NVal.dict es, [k] => (mapGet es k).isSome
  | NVal.leaf _, [_] => false
  | NVal.dict es, k :: k2 :: rest =>
    match mapGet es k with
    | some sub => validPath sub (k2 :: rest)
    | none => false
  | NVal.leaf _, _ :: _ :: _ => false

theorem mapGet_mapSet_self {α : Type} (m : List (String × α)) (k : String) (v : α) :
    mapGet (mapSet m k v) k = some v := by
  induction m with
  | nil => simp [mapSet, mapGet]
  | cons kv rest ih =>
    by_cases h : kv.1 = k
    · simp [mapSet, mapGet, h]
    · simp [mapSet, mapGet, h, ih]

theorem mapGet_mapSet_ne {α : Type} (m : List (String × α)) (k k' : String) (v : α)
    (h : k' ≠ k) : mapGet (mapSet m k v) k' = mapGet m k' := by
  have h' : ¬ (k = k') := fun hh => h hh.symm
  induction m with
  | nil => simp [mapSet, mapGet, h, h']
  | cons kv rest ih =>
    by_cases h2 : kv.1 = k
    · have h4 : ¬ (kv.1 = k') := by rw [h2]; exact h'
      simp [mapSet, mapGet, h2, h', h4]
    · by_cases h5 : kv.1 = k'
      · simp [mapSet, mapGet, h2, h5, h]
      · simp [mapSet, mapGet, h2, h5, ih]

/-- C7: coercing the cell text `"[1;2;3]"` under unit tag `"factor"` yields a
list node of exactly three scalar values `1`, `2`, `3` sharing the unit
`"factor"`: the interior is split on `;` and each sub-token is coerced by
`conversion` under the same unit tag, after which the slots are gathered into
`{"value": [1, 2, 3], "unit": "factor"}`. -/
theorem listCoercionThreeScalars :
    processCell "energyConversion" [] "factor" "efficiency" "pv"
        (JValue.str "[1;2;3]")
      = Except.ok
          ([("efficiency",
              JValue.obj
                [("value", JValue.arr [JValue.int 1, JValue.int 2, JValue.int 3]),
                 ("unit", JValue.str "factor")])],
           [Diag.listParameterInfo "efficiency" "pv"]) := rfl

/-- C8: under unit tag `"bool"` the literals `"True"`, `"true"`, `"t"` coerce
to `true` and `"False"`, `"false"`, `"F"` coerce to `false`; every other
brace-free literal is kept verbatim in the produced value node together with
a diagnostic — neither defaulted to a boolean nor rejected with an
exception. -/
theorem boolCoercionAllowList (filename : String) (d : Dict) (i column s : String) :
    (conversion filename d "bool" i column (JValue.str "True")
      = Except.ok (dictUpdate d i
          (JValue.obj [("value", JValue.bool true), ("unit", JValue.str "bool")]), []))
  ∧ (conversion filename d "bool" i column (JValue.str "true")
      = Except.ok (dictUpdate d i
          (JValue.obj [("value", JValue.bool true), ("unit", JValue.str "bool")]), []))
  ∧ (conversion filename d "bool" i column (JValue.str "t")
      = Except.ok (dictUpdate d i
          (JValue.obj [("value", JValue.bool true), ("unit", JValue.str "bool")]), []))
  ∧ (conversion filename d "bool" i column (JValue.str "False")
      = Except.ok (dictUpdate d i
          (JValue.obj [("value", JValue.bool false), ("unit", JValue.str "bool")]), []))
  ∧ (conversion filename d "bool" i column (JValue.str "false")
      = Except.ok (dictUpdate d i
          (JValue.obj [("value", JValue.bool false), ("unit", JValue.str "bool")]), []))
  ∧ (conversion filename d "bool" i column (JValue.str "F")
      = Except.ok (dictUpdate d i
          (JValue.obj [("value", JValue.bool false), ("unit", JValue.str "bool")]), []))
  ∧ (strContains s lbrace = false → strContains s rbrace = false →
      s ≠ "True" → s ≠ "true" → s ≠ "t" → s ≠ "False" → s ≠ "false" → s ≠ "F" →
      conversion filename d "bool" i column (JValue.str s)
        = Except.ok (dictUpdate d i
            (JValue.obj [("value", JValue.str s), ("unit", JValue.str "bool")]),
          [Diag.notBoolean])) := by
  refine ⟨rfl, rfl, rfl, rfl, rfl, rfl, ?_⟩
  intro h1 h2 h3 h4 h5 h6 h7 h8
  simp [conversion, h1, h2, h3, h4, h5, h6, h7, h8]

/-- Witness for C8 at the literal `"maybe"`: a diagnostic is produced and the
original literal is preserved in the value node. -/
theorem boolCoercionAllowList_witness :
    conversion "energySystem" [] "bool" "optimizeCap" "pv" (JValue.str "maybe")
      = Except.ok
          ([("optimizeCap",
              JValue.obj [("value", JValue.str "maybe"), ("unit", JValue.str "bool")])],
           [Diag.notBoolean]) :=
  (boolCoercionAllowList "energySystem" [] "optimizeCap" "pv" "maybe").2.2.2.2.2.2
    rfl rfl (by decide) (by decide) (by decide) (by decide) (by decide) (by decide)

/-- C1 counterexample: for the spec's own example `"[1;2"` (and likewise for
a cell with exactly one brace character), a diagnostic is emitted and no
exception is raised, but the resulting record does NOT contain a `RawString`
of the original cell text — it contains no entry for the parameter at all,
refuting the claim's "yields RawString of the original cell text in the
resulting record". -/
theorem unbalancedLiteralRawStringRefuted :
    (processCell "energyConversion" [] "factor" "efficiency" "pv" (JValue.str "[1;2")
      = Except.ok ([], [Diag.unbalancedBracket "energyConversion" "pv" "efficiency"]))
  ∧ ((okDict (processCell "energyConversion" [] "factor" "efficiency" "pv"
        (JValue.str "[1;2"))).map (fun d => dictHasKey d "efficiency") = some false)
  ∧ (conversion "energyProduction" [] "str" "input" "pv" (JValue.str "a\x7db")
      = Except.ok ([], [Diag.unbalancedBrace "energyProduction" "pv" "input"]))
  ∧ ((okDict (conversion "energyProduction" [] "str" "input" "pv"
        (JValue.str "a\x7db"))).map (fun d => dictHasKey d "input") = some false) :=
  ⟨rfl, rfl, rfl, rfl⟩

/-- C1 as amended: for every cell text containing exactly one of the two
bracket characters, and likewise exactly one of the two brace characters,
the coercion emits one diagnostic, never raises, and returns the record
UNCHANGED — the parameter is dropped from the record rather than kept as a
`RawString` of the original cell text. -/
theorem unbalancedLiteralDropsEntry (filename : String) (d : Dict)
    (u i column s : String) :
    ((strContains s '[' || strContains s ']') = true →
      (strContains s '[' && strContains s ']') = false →
      processCell filename d u i column (JValue.str s)
        = Except.ok (d, [Diag.unbalancedBracket filename column i]))
  ∧ (strContains s '[' = false → strContains s ']' = false →
      (strContains s lbrace || strContains s rbrace) = true →
      (strContains s lbrace && strContains s rbrace) = false →
      processCell filename d u i column (JValue.str s)
        = Except.ok (d, [Diag.unbalancedBrace filename column i])) := by
  constructor
  · intro h1 h2
    cases hA : strContains s '[' <;> cases hB : strContains s ']' <;>
      simp_all [processCell]
  · intro h1 h2 h3 h4
    cases hA : strContains s lbrace <;> cases hB : strContains s rbrace <;>
      simp_all [processCell, conversion]

/-- Witness for C1's amended statement: a nonempty record passes through the
unbalanced-bracket case unchanged, with the diagnostic. -/
theorem unbalancedLiteralDropsEntry_witness :
    processCell "energyConversion" [("age_installed", JValue.int 5)] "factor"
        "efficiency" "pv" (JValue.str "[1;2")
      = Except.ok ([("age_installed", JValue.int 5)],
          [Diag.unbalancedBracket "energyConversion" "pv" "efficiency"]) :=
  (unbalancedLiteralDropsEntry "energyConversion" [("age_installed", JValue.int 5)]
    "factor" "efficiency" "pv" "[1;2").1 rfl rfl

/-- C4 counterexample: loading a table whose index contains `maximumCap`
leaves the caller-supplied parameter list CHANGED after the call — Python's
`parameters.append` mutates the shared list in place — refuting the claim's
"the caller-supplied required-parameter schema object is unchanged after the
call (derivation, not in-place mutation)". -/
theorem maximumCapDerivationRefuted :
    ((maximumCapCheck ["age_installed"] ["maximumCap", "label"]
        "energyProduction").2.1 = ["age_installed", "maximumCap"])
  ∧ (["age_installed", "maximumCap"] ≠ (["age_installed"] : List String)) :=
  ⟨rfl, by decide⟩

/-- C4 as amended: when the index contains `maximumCap` the name is folded
into the effective required set for the load, but by appending to the
caller-supplied `parameters` list in place, so the caller's schema object is
mutated and the change outlives the call (the list is the shared module-level
`REQUIRED_CSV_PARAMETERS[filename]`); when it is absent, only a non-fatal
diagnostic is emitted and the list is untouched. -/
theorem maximumCapMutatesSharedList (parameters index : List String)
    (filename : String) :
    ("maximumCap" ∈ index →
      maximumCapCheck parameters index filename
        = (parameters ++ ["maximumCap"], parameters ++ ["maximumCap"], []))
  ∧ ("maximumCap" ∉ index →
      maximumCapCheck parameters index filename
        = (parameters, parameters, [Diag.maximumCapMissing filename])) := by
  constructor <;> intro h <;> simp [maximumCapCheck, h]

/-- Witness for C4's amended statement at a concrete table index. -/
theorem maximumCapMutatesSharedList_witness :
    maximumCapCheck ["age_installed"] ["maximumCap", "label"] "energyProduction"
      = (["age_installed", "maximumCap"], ["age_installed", "maximumCap"], []) :=
  (maximumCapMutatesSharedList ["age_installed"] ["maximumCap", "label"]
    "energyProduction").1 (by decide)

/-- C5: if an artifact already exists at the destination, `create_input_json`
fails with `FileExistsError` (the `ArtifactExistsError` of the spec) before
performing any write — the directory state is returned untouched — and a
second `emit` into the destination of a successful first one fails and leaves
the first call's artifact unchanged. Proved for every body `buildJson` of the
csv-reading phase. -/
theorem emitRefusesExistingArtifact (csvFname dir : String)
    (buildJson : FS → String → String) (fs : FS)
    (hfree : fsExists fs (pathJoin dir csvFname) = false) :
    ((createInputJson csvFname buildJson fs dir).2
        = Except.ok (pathJoin dir csvFname))
  ∧ (fsRead (createInputJson csvFname buildJson fs dir).1 (pathJoin dir csvFname)
        = some (buildJson fs dir))
  ∧ (createInputJson csvFname buildJson
        (createInputJson csvFname buildJson fs dir).1 dir
      = ((createInputJson csvFname buildJson fs dir).1,
         Except.error PyError.fileExistsError))
  ∧ (∀ fs' : FS, fsExists fs' (pathJoin dir csvFname) = true →
      createInputJson csvFname buildJson fs' dir
        = (fs', Except.error PyError.fileExistsError)) := by
  have hex : ∀ fs' : FS, fsExists fs' (pathJoin dir csvFname) = true →
      createInputJson csvFname buildJson fs' dir
        = (fs', Except.error PyError.fileExistsError) := by
    intro fs' h
    simp [createInputJson, h]
  have hfirst : createInputJson csvFname buildJson fs dir
      = (fsWrite fs (pathJoin dir csvFname) (buildJson fs dir),
         Except.ok (pathJoin dir csvFname)) := by
    simp [createInputJson, hfree]
  refine ⟨by rw [hfirst], ?_, ?_, hex⟩
  · rw [hfirst]
    exact mapGet_mapSet_self fs.files (pathJoin dir csvFname) (buildJson fs dir)
  · rw [hfirst]
    refine hex _ ?_
    show (mapGet (mapSet fs.files (pathJoin dir csvFname) (buildJson fs dir))
      (pathJoin dir csvFname)).isSome = true
    rw [mapGet_mapSet_self]
    rfl

/-- Witness for C5 on an initially empty directory. -/
theorem emitRefusesExistingArtifact_witness :
    (((createInputJson "mvs_csv_config.json" (fun _ _ => "artifact") ⟨[]⟩
        "inputs").2 = Except.ok (pathJoin "inputs" "mvs_csv_config.json"))
  ∧ (fsRead (createInputJson "mvs_csv_config.json" (fun _ _ => "artifact") ⟨[]⟩
        "inputs").1 (pathJoin "inputs" "mvs_csv_config.json")
        = some "artifact")
  ∧ (createInputJson "mvs_csv_config.json" (fun _ _ => "artifact")
        (createInputJson "mvs_csv_config.json" (fun _ _ => "artifact") ⟨[]⟩
          "inputs").1 "inputs"
      = ((createInputJson "mvs_csv_config.json" (fun _ _ => "artifact") ⟨[]⟩
          "inputs").1, Except.error PyError.fileExistsError))
  ∧ (∀ fs' : FS, fsExists fs' (pathJoin "inputs" "mvs_csv_config.json") = true →
      createInputJson "mvs_csv_config.json" (fun _ _ => "artifact") fs' "inputs"
        = (fs', Except.error PyError.fileExistsError))) :=
  emitRefusesExistingArtifact "mvs_csv_config.json" "inputs"
    (fun _ _ => "artifact") ⟨[]⟩ rfl

/-- C6: the parameter reconciliation of `create_json_from_csv` is a symmetric
difference: a name is reported missing exactly when it is required but not
provided and reported as not recognised (extra) exactly when it is provided
but not required, each as a non-fatal diagnostic (the check's output type is
a diagnostic list, so it cannot halt processing); in particular
`reconcile({a,b,c}, {a,b,d})` reports `c` missing and `d` extra. -/
theorem reconcileSymmetricDifference (filename : String)
    (required provided : List String) (p : String) :
    ((Diag.paramMissing filename p ∈ checkParameters filename required provided)
        ↔ (p ∈ required ∧ p ∉ provided))
  ∧ ((Diag.paramNotRecognized filename p ∈ checkParameters filename required provided)
        ↔ (p ∈ provided ∧ p ∉ required))
  ∧ (checkParameters "f" ["a", "b", "c"] ["a", "b", "d"]
        = [Diag.paramMissing "f" "c", Diag.paramNotRecognized "f" "d"]) := by
  refine ⟨⟨?_, ?_⟩, ⟨?_, ?_⟩, by decide⟩
  · intro hm
    simp only [checkParameters, List.mem_map, List.mem_append, List.mem_filter,
      List.mem_dedup, decide_eq_true_eq] at hm
    obtain ⟨i, hi, heq⟩ := hm
    by_cases hr : i ∈ required
    · rw [if_pos hr, Diag.paramMissing.injEq] at heq
      obtain ⟨-, rfl⟩ := heq
      rcases hi with ⟨-, hnp⟩ | ⟨-, hnr⟩
      · exact ⟨hr, hnp⟩
      · exact absurd hr hnr
    · rw [if_neg hr] at heq
      exact absurd heq (by simp)
  · rintro ⟨hr, hnp⟩
    simp only [checkParameters, List.mem_map, List.mem_append, List.mem_filter,
      List.mem_dedup, decide_eq_true_eq]
    exact ⟨p, Or.inl ⟨hr, hnp⟩, by rw [if_pos hr]⟩
  · intro hm
    simp only [checkParameters, List.mem_map, List.mem_append, List.mem_filter,
      List.mem_dedup, decide_eq_true_eq] at hm
    obtain ⟨i, hi, heq⟩ := hm
    by_cases hr : i ∈ required
    · rw [if_pos hr] at heq
      exact absurd heq (by simp)
    · rw [if_neg hr, Diag.paramNotRecognized.injEq] at heq
      obtain ⟨-, rfl⟩ := heq
      rcases hi with ⟨hir, -⟩ | ⟨hp, -⟩
      · exact absurd hir hr
      · exact ⟨hp, hr⟩
  · rintro ⟨hp, hnr⟩
    simp only [checkParameters, List.mem_map, List.mem_append, List.mem_filter,
      List.mem_dedup, decide_eq_true_eq]
    exact ⟨p, Or.inr ⟨hp, hnr⟩, by rw [if_neg hnr]⟩

/-- C2 counterexample: in a `"storage capacity"` column whose `soc_min` cell
is empty (NaN), the resulting record holds `soc_min` as the scalar `0` — not
as `Null` — refuting the claim's "kept as Null in the resulting record"; the
accompanying diagnostic says the value "is set to 0 automatically". -/
theorem storageNullKeptNullRefuted :
    ((okDict (createJsonFromCsvStorage storageCapacityNaNTable storageCommonParams
        "storage_01")).bind (fun d => dictLookup d "storage capacity")
      = some (JValue.obj
          [("label", JValue.str "Battery"),
           ("soc_min",
             JValue.obj [("value", JValue.int 0), ("unit", JValue.str "factor")])]))
  ∧ ((Diag.storageParamNaNSetZero "storage_01" "storage capacity" "soc_min")
      ∈ (okDiags (createJsonFromCsvStorage storageCapacityNaNTable
          storageCommonParams "storage_01")).getD [])
  ∧ (dictLookup
        [("label", JValue.str "Battery"),
         ("soc_min",
           JValue.obj [("value", JValue.int 0), ("unit", JValue.str "factor")])]
        "soc_min"
      ≠ some JValue.null) := by
  refine ⟨rfl, by decide, ?_⟩
  intro h
  rw [show dictLookup
      [("label", JValue.str "Battery"),
       ("soc_min",
         JValue.obj [("value", JValue.int 0), ("unit", JValue.str "factor")])]
      "soc_min"
    = some (JValue.obj [("value", JValue.int 0), ("unit", JValue.str "factor")])
    from rfl] at h
  exact JValue.noConfusion (Option.some.inj h)

/-- C2 as amended: a parameter of the role's effective required set whose
cell is empty is set to the scalar `0` — with a non-fatal warning — not kept
as `Null`; and a `"storage capacity"` column missing the `soc_min` row
entirely yields only a warning and a record with no `soc_min` entry. In
neither case is the error fatal. -/
theorem storageNullRequiredSetZero (filename column : String)
    (columnParameters : List String) (i : String) (v : JValue)
    (hmem : i ∈ columnParameters) (hnull : isNullCell v = true) :
    (storagePrepCell filename column columnParameters i v
        = (JValue.int 0, [Diag.storageParamNaNSetZero filename column i]))
  ∧ ((okDict (createJsonFromCsvStorage storageCapacityMissingRowTable
        storageCommonParams "storage_01")).bind
          (fun d => dictLookup d "storage capacity")
      = some (JValue.obj [("label", JValue.str "Battery")]))
  ∧ ((Diag.storageParamMissing "storage_01" "storage capacity" "soc_min")
      ∈ (okDiags (createJsonFromCsvStorage storageCapacityMissingRowTable
          storageCommonParams "storage_01")).getD []) := by
  refine ⟨?_, rfl, by decide⟩
  simp [storagePrepCell, hmem, hnull]

/-- Witness for C2's amended statement: `soc_min` with a NaN cell in a
storage-capacity column is rewritten to `0` with the warning. -/
theorem storageNullRequiredSetZero_witness :
    storagePrepCell "storage_01" "storage capacity"
        (storageCommonParams ++ ["soc_initial", "soc_max", "soc_min"]) "soc_min"
        JValue.nanV
      = (JValue.int 0,
         [Diag.storageParamNaNSetZero "storage_01" "storage capacity" "soc_min"]) :=
  (storageNullRequiredSetZero "storage_01" "storage capacity"
    (storageCommonParams ++ ["soc_initial", "soc_max", "soc_min"]) "soc_min"
    JValue.nanV (by decide) rfl).1

/-- C3 counterexample: with no storage sub-table files present,
`add_storage_components` merely logs and returns Python `None` (there is no
typed `MissingStorageFileError` anywhere in the code), and the `energyStorage`
group run aborts with `TypeError` from `dict.update(None)` — the owning asset
is not skipped-and-passed-over, and the remaining assets of the batch are
never processed. -/
theorem missingStorageFileIsolationRefuted :
    (addStorageComponents [] "storage_01"
        = ([Diag.missingStorageFile "storage_01"], none))
  ∧ (createJsonFromCsvEnergyStorage [] energyStorageExampleTable
        ["label", "storage_filename"]
      = Except.error PyError.typeError) := ⟨rfl, rfl⟩

/-- C3 as amended: a storage sub-table file that does not exist produces a
logged error and a `None` return from `add_storage_components`; the caller
then executes `single_dict[column].update(None)`, which raises an untyped
`TypeError` that is caught nowhere, so the whole group run (and with it the
batch) aborts instead of skipping only the owning asset. -/
theorem missingStorageFileRaisesTypeError (tables : List (String × RawTable))
    (storageFilename : String) (columnDict : Dict)
    (hmiss : tables.find? (fun kv => kv.1 = storageFilename) = none) :
    (addStorageComponents tables storageFilename
        = ([Diag.missingStorageFile storageFilename], none))
  ∧ (mergeStorageDict columnDict (addStorageComponents tables storageFilename).2
        = Except.error PyError.typeError) := by
  constructor
  · simp [addStorageComponents, hmiss]
  · simp [addStorageComponents, hmiss, mergeStorageDict]

/-- Witness for C3's amended statement on an empty directory. -/
theorem missingStorageFileRaisesTypeError_witness :
    (addStorageComponents [] "storage_01"
        = ([Diag.missingStorageFile "storage_01"], none))
  ∧ (mergeStorageDict [("label", JValue.str "Battery")]
        (addStorageComponents [] "storage_01").2
      = Except.error PyError.typeError) :=
  missingStorageFileRaisesTypeError [] "storage_01"
    [("label", JValue.str "Battery")] rfl

theorem setNestedValueGoSpec (v : NVal) (ks : List String) :
    ∀ (dct : NVal), validPath dct ks = true →
    ∃ r, setNestedValueGo v dct ks = Except.ok r
       ∧ getNestedValueGo r ks = Except.ok v
       ∧ ∀ ks' : List String,
           isInitialSegment ks ks' = false → isInitialSegment ks' ks = false →
           getNestedValueGo r ks' = getNestedValueGo dct ks' := by
  induction ks with
  | nil =>
    intro dct hvalid
    simp [validPath] at hvalid
  | cons k tail ih =>
    intro dct hvalid
    cases tail with
    | nil =>
      cases dct with
      | leaf n => simp [validPath] at hvalid
      | dict es =>
        refine ⟨NVal.dict (mapSet es k v), rfl, ?_, ?_⟩
        · simp [getNestedValueGo, mapGet_mapSet_self]
        · intro ks' hp1 hp2
          cases ks' with
          | nil => rfl
          | cons k' rest' =>
            have hk : ¬ (k = k') := by
              intro h
              subst h
              simp [isInitialSegment] at hp1
            have hk' : k' ≠ k := fun h => hk h.symm
            cases rest' with
            | nil => simp [getNestedValueGo, mapGet_mapSet_ne es k k' v hk']
            | cons r1 rest'' =>
              simp [getNestedValueGo, mapGet_mapSet_ne es k k' v hk']
    | cons k2 rest =>
      cases dct with
      | leaf n => simp [validPath] at hvalid
      | dict es =>
        have hsub : ∃ sub, mapGet es k = some sub ∧ validPath sub (k2 :: rest) = true := by
          revert hvalid
          simp only [validPath]
          cases hm : mapGet es k with
          | none => intro h; exact absurd h (by simp)
          | some sub => intro h; exact ⟨sub, rfl, h⟩
        obtain ⟨sub, hm, hv'⟩ := hsub
        obtain ⟨rs, hset, hget, hframe⟩ := ih sub hv'
        refine ⟨NVal.dict (mapSet es k rs), ?_, ?_, ?_⟩
        · simp [setNestedValueGo, hm, hset]
        · simp [getNestedValueGo, mapGet_mapSet_self, hget]
        · intro ks' hp1 hp2
          cases ks' with
          | nil => rfl
          | cons k' rest' =>
            by_cases hk : k' = k
            · subst hk
              have hp1' : isInitialSegment (k2 :: rest) rest' = false := by
                simpa [isInitialSegment] using hp1
              have hp2' : isInitialSegment rest' (k2 :: rest) = false := by
                simpa [isInitialSegment] using hp2
              cases rest' with
              | nil => simp [isInitialSegment] at hp2'
              | cons r1 rest'' =>
                simp only [getNestedValueGo, mapGet_mapSet_self, hm]
                exact hframe (r1 :: rest'') hp1' hp2'
            · cases rest' with
              | nil => simp [getNestedValueGo, mapGet_mapSet_ne es k k' rs hk]
              | cons r1 rest'' =>
                simp [getNestedValueGo, mapGet_mapSet_ne es k k' rs hk]

/-- C10: `set_nested_value` never mutates its input — the source deep-copies
`dct` and assigns only into the copy, so the embedding is a pure function —
and for every nested dict, value and nonempty key tuple leading through
nested dicts it returns the input with exactly the entry at the end of the
path replaced by the value: reading the result at the path gives the new
value, reading it at any path not sharing an initial segment with it is
unchanged; the empty tuple raises `ValueError` and a non-tuple `keys`
argument raises `TypeError`, in both cases before any observable effect. -/
theorem setNestedValueReplacesOnlyPath (dct v : NVal) (ks : List String)
    (hvalid : validPath dct ks = true) :
    (∃ r, set_nested_value dct v (KeysArg.tup ks) = Except.ok r
       ∧ get_nested_value r (KeysArg.tup ks) = Except.ok v
       ∧ ∀ ks' : List String,
           isInitialSegment ks ks' = false → isInitialSegment ks' ks = false →
           get_nested_value r (KeysArg.tup ks') = get_nested_value dct (KeysArg.tup ks'))
  ∧ (set_nested_value dct v (KeysArg.tup []) = Except.error PyError.valueError)
  ∧ (set_nested_value dct v KeysArg.notTuple = Except.error PyError.typeError) := by
  refine ⟨?_, by cases dct <;> rfl, rfl⟩
  obtain ⟨r, hset, hget, hframe⟩ := setNestedValueGoSpec v ks dct hvalid
  exact ⟨r, hset, hget, fun ks' h1 h2 => hframe ks' h1 h2⟩

/-- Witness for C10 at the doctest input: setting `400` under
`("b","b1","b12","b121")`. -/
theorem setNestedValueReplacesOnlyPath_witness :
    (validPath doctestNested ["b", "b1", "b12", "b121"] = true)
  ∧ ((∃ r, set_nested_value doctestNested (NVal.leaf 400)
          (KeysArg.tup ["b", "b1", "b12", "b121"]) = Except.ok r
       ∧ get_nested_value r (KeysArg.tup ["b", "b1", "b12", "b121"])
           = Except.ok (NVal.leaf 400)
       ∧ ∀ ks' : List String,
           isInitialSegment ["b", "b1", "b12", "b121"] ks' = false →
           isInitialSegment ks' ["b", "b1", "b12", "b121"] = false →
           get_nested_value r (KeysArg.tup ks')
             = get_nested_value doctestNested (KeysArg.tup ks'))
  ∧ (set_nested_value doctestNested (NVal.leaf 400) (KeysArg.tup [])
        = Except.error PyError.valueError)
  ∧ (set_nested_value doctestNested (NVal.leaf 400) KeysArg.notTuple
        = Except.error PyError.typeError)) :=
  ⟨rfl, setNestedValueReplacesOnlyPath doctestNested (NVal.leaf 400)
    ["b", "b1", "b12", "b121"] rfl⟩

theorem mapGet_updateGroupParam_self (main : Dict) (mp q : String) (v : JValue)
    (kvs : Dict) (h : mapGet main mp = some (JValue.obj kvs)) :
    mapGet (updateGroupParam main mp q v) mp
      = some (JValue.obj (mapSet kvs q v)) := by
  induction main with
  | nil => simp [mapGet] at h
  | cons kv rest ih =>
    by_cases h2 : kv.1 = mp
    · rw [show mapGet (kv :: rest) mp = some kv.2 by simp [mapGet, h2]] at h
      have hv := Option.some.inj h
      simp [updateGroupParam, h2, hv, mapGet]
    · rw [show mapGet (kv :: rest) mp = mapGet rest mp by simp [mapGet, h2]] at h
      simp [updateGroupParam, h2, mapGet, ih h]

theorem mem_keys_of_mapGet {α : Type} (m : List (String × α)) (k : String) (v : α)
    (h : mapGet m k = some v) : k ∈ m.map (fun kv => kv.1) := by
  induction m with
  | nil => simp [mapGet] at h
  | cons kv rest ih =>
    by_cases h2 : kv.1 = k
    · simp [h2]
    · rw [show mapGet (kv :: rest) k = mapGet rest k by simp [mapGet, h2]] at h
      simp [ih h]

theorem appendMissing_not_mem_sp (m : MissingMap) (mp q sp : String) (hq : sp ≠ q)
    (h : ¬ ∃ l, mapGet m mp = some (some l) ∧ sp ∈ l) :
    ¬ ∃ l, mapGet (appendMissing m mp q) mp = some (some l) ∧ sp ∈ l := by
  unfold appendMissing
  cases hm : mapGet m mp with
  | none =>
    rintro ⟨l, hl, hsp⟩
    rw [mapGet_mapSet_self] at hl
    obtain rfl := Option.some.inj (Option.some.inj hl)
    simp at hsp
    exact hq hsp
  | some o =>
    cases o with
    | none => exact h
    | some l0 =>
      rintro ⟨l, hl, hsp⟩
      rw [mapGet_mapSet_self] at hl
      obtain rfl := Option.some.inj (Option.some.inj hl)
      rcases List.mem_append.mp hsp with h1 | h2
      · exact h ⟨l0, hm, h1⟩
      · simp at h2
        exact hq h2

theorem foldl_invariant {σ α : Type} (P : σ → Prop) (f : σ → α → σ) :
    ∀ (l : List α) (s : σ), P s → (∀ s' a, a ∈ l → P s' → P (f s' a)) →
    P (l.foldl f s) := by
  intro l
  induction l with
  | nil => intro s hs _; exact hs
  | cons a rest ih =>
    intro s hs hstep
    exact ih (f s a) (hstep s a (by simp) hs)
      (fun s' b hb hp => hstep s' b (by simp [hb]) hp)

theorem addAbsentGroups_preserves (req : List (String × Option (List String)))
    (mainKeys : List String) (miss : MissingMap) (mp : String)
    (hmem : mp ∈ mainKeys) :
    mapGet (addAbsentGroups mainKeys req miss) mp = mapGet miss mp := by
  induction req generalizing miss with
  | nil => rfl
  | cons kv rest ih =>
    by_cases h2 : kv.1 ∈ mainKeys
    · simp only [addAbsentGroups, if_pos h2]
      exact ih miss
    · simp only [addAbsentGroups, if_neg h2]
      rw [ih (mapSet miss kv.1 kv.2)]
      exact mapGet_mapSet_ne miss kv.1 mp kv.2 (fun hh => h2 (hh ▸ hmem))

theorem processSubParam_step_preserve (reqList : List String)
    (knownExtra : List (String × KnownExtraInfo)) (mp sp : String)
    (R : Dict → Prop)
    (hR : ∀ (kvs' : Dict) (q : String) (v : JValue), q ≠ sp → R kvs' →
      R (mapSet kvs' q v))
    (st : CompareState) (q : String) (hq : q ≠ sp)
    (hQ : ∃ kvs', mapGet st.1 mp = some (JValue.obj kvs') ∧ R kvs')
    (hM : ¬ ∃ l, mapGet st.2.1 mp = some (some l) ∧ sp ∈ l) :
    (∃ kvs'', mapGet (processSubParam reqList knownExtra true mp "non-asset" st q).1
        mp = some (JValue.obj kvs'') ∧ R kvs'')
  ∧ (¬ ∃ l, mapGet (processSubParam reqList knownExtra true mp "non-asset" st q).2.1
        mp = some (some l) ∧ sp ∈ l) := by
  obtain ⟨kvs', hmain, hr⟩ := hQ
  by_cases hreq : q ∈ reqList
  · cases hfind : knownExtra.find? (fun kv => kv.1 = q) with
    | none =>
      simp only [processSubParam, if_pos hreq, hfind]
      exact ⟨⟨kvs', hmain, hr⟩,
        appendMissing_not_mem_sp st.2.1 mp q sp (fun hh => hq hh.symm) hM⟩
    | some info =>
      simp only [processSubParam, if_pos hreq, hfind, if_pos rfl]
      refine ⟨⟨mapSet kvs' q (knownExtraNode info.2),
        mapGet_updateGroupParam_self st.1 mp q (knownExtraNode info.2) kvs' hmain,
        hR kvs' q (knownExtraNode info.2) hq hr⟩, hM⟩
  · simp only [processSubParam, if_neg hreq]
    exact ⟨⟨kvs', hmain, hr⟩, hM⟩

theorem processSubParam_step_establish (reqList : List String)
    (knownExtra : List (String × KnownExtraInfo)) (mp sp : String)
    (info : KnownExtraInfo) (hsp : sp ∈ reqList)
    (hke : knownExtra.find? (fun kv => kv.1 = sp) = some ⟨sp, info⟩)
    (st : CompareState)
    (hQ : ∃ kvs', mapGet st.1 mp = some (JValue.obj kvs'))
    (hM : ¬ ∃ l, mapGet st.2.1 mp = some (some l) ∧ sp ∈ l) :
    (∃ kvs'', mapGet (processSubParam reqList knownExtra true mp "non-asset" st sp).1
        mp = some (JValue.obj kvs'')
      ∧ mapGet kvs'' sp = some (knownExtraNode info))
  ∧ (¬ ∃ l, mapGet (processSubParam reqList knownExtra true mp "non-asset" st sp).2.1
        mp = some (some l) ∧ sp ∈ l) := by
  obtain ⟨kvs', hmain⟩ := hQ
  simp only [processSubParam, if_pos hsp, hke, if_pos rfl]
  exact ⟨⟨mapSet kvs' sp (knownExtraNode info),
    mapGet_updateGroupParam_self st.1 mp sp (knownExtraNode info) kvs' hmain,
    mapGet_mapSet_self kvs' sp (knownExtraNode info)⟩, hM⟩

theorem symmetricDiff_mem_right (provided reqList : List String) (sp : String)
    (hsp : sp ∈ reqList) (hns : sp ∉ provided) :
    sp ∈ symmetricDiff provided reqList := by
  simp [symmetricDiff, List.mem_filter, hsp, hns]

theorem symmetricDiff_nodup (provided reqList : List String) :
    (symmetricDiff provided reqList).Nodup := by
  unfold symmetricDiff
  rw [List.nodup_append]
  refine ⟨(List.nodup_dedup provided).filter _, (List.nodup_dedup reqList).filter _, ?_⟩
  intro x hx hx'
  rw [List.mem_filter] at hx hx'
  have h1 : x ∉ reqList := by simpa using hx.2
  have h2 : x ∈ reqList := List.mem_dedup.mp hx'.1
  exact h1 h2

theorem mapGet_mem_keys {α : Type} (m : List (String × α)) (k : String)
    (h : k ∈ m.map (fun kv => kv.1)) : ∃ v, mapGet m k = some v := by
  induction m with
  | nil => simp at h
  | cons kv rest ih =>
    by_cases h2 : kv.1 = k
    · exact ⟨kv.2, by simp [mapGet, h2]⟩
    · have h3 : k ∈ rest.map (fun kv => kv.1) := by
        rcases List.mem_cons.mp h with h4 | h4
        · exact absurd h4.symm h2
        · exact h4
      obtain ⟨v, hv⟩ := ih h3
      exact ⟨v, by simp [mapGet, h2, hv]⟩

theorem appendMissing_frame (m : MissingMap) (p q x : String) (hx : x ≠ p) :
    mapGet (appendMissing m p q) x = mapGet m x := by
  unfold appendMissing
  cases hm : mapGet m p with
  | none => exact mapGet_mapSet_ne m p x (some [q]) hx
  | some o =>
    cases o with
    | none => rfl
    | some l0 => exact mapGet_mapSet_ne m p x (some (l0 ++ [q])) hx

theorem updateGroupParam_frame (main : Dict) (p q : String) (v : JValue)
    (x : String) (hx : x ≠ p) :
    mapGet (updateGroupParam main p q v) x = mapGet main x := by
  induction main with
  | nil => simp [updateGroupParam]
  | cons kv rest ih =>
    by_cases h2 : kv.1 = p
    · have h3 : ¬ (p = x) := fun hh => hx hh.symm
      have h4 : ¬ (kv.1 = x) := by rw [h2]; exact h3
      simp [updateGroupParam, h2, mapGet, h3, h4]
    · by_cases h5 : kv.1 = x
      · simp [updateGroupParam, h2, mapGet, h5, hx]
      · simp [updateGroupParam, h2, mapGet, h5, ih]

theorem updateGroupParam_keys (main : Dict) (p q : String) (v : JValue) :
    dictKeys (updateGroupParam main p q v) = dictKeys main := by
  induction main with
  | nil => simp [updateGroupParam]
  | cons kv rest ih =>
    by_cases h2 : kv.1 = p
    · simp [updateGroupParam, h2, dictKeys]
    · simp only [updateGroupParam, if_neg h2]
      simp only [dictKeys, List.map_cons] at ih ⊢
      rw [ih]

theorem updateAssetParam_frame (main : Dict) (p k q : String) (v : JValue)
    (x : String) (hx : x ≠ p) :
    mapGet (updateAssetParam main p k q v) x = mapGet main x := by
  induction main with
  | nil => simp [updateAssetParam]
  | cons kv rest ih =>
    by_cases h2 : kv.1 = p
    · have h3 : ¬ (p = x) := fun hh => hx hh.symm
      have h4 : ¬ (kv.1 = x) := by rw [h2]; exact h3
      simp [updateAssetParam, h2, mapGet, h3, h4]
    · by_cases h5 : kv.1 = x
      · simp [updateAssetParam, h2, mapGet, h5, hx]
      · simp [updateAssetParam, h2, mapGet, h5, ih]

theorem updateAssetParam_keys (main : Dict) (p k q : String) (v : JValue) :
    dictKeys (updateAssetParam main p k q v) = dictKeys main := by
  induction main with
  | nil => simp [updateAssetParam]
  | cons kv rest ih =>
    by_cases h2 : kv.1 = p
    · simp [updateAssetParam, h2, dictKeys]
    · simp only [updateAssetParam, if_neg h2]
      simp only [dictKeys, List.map_cons] at ih ⊢
      rw [ih]

theorem mapGet_updateAssetParam_self (main : Dict) (p k q : String) (v : JValue)
    (kvs : Dict) (h : mapGet main p = some (JValue.obj kvs)) :
    mapGet (updateAssetParam main p k q v) p
      = some (JValue.obj (updateAssetInner kvs k q v)) := by
  induction main with
  | nil => simp [mapGet] at h
  | cons kv rest ih =>
    by_cases h2 : kv.1 = p
    · rw [show mapGet (kv :: rest) p = some kv.2 by simp [mapGet, h2]] at h
      have hv := Option.some.inj h
      simp [updateAssetParam, h2, hv, mapGet]
    · rw [show mapGet (kv :: rest) p = mapGet rest p by simp [mapGet, h2]] at h
      simp [updateAssetParam, h2, mapGet, ih h]

theorem updateAssetInner_self (kvs : Dict) (k q : String) (v : JValue)
    (akvs : Dict) (h : mapGet kvs k = some (JValue.obj akvs)) :
    mapGet (updateAssetInner kvs k q v) k
      = some (JValue.obj (mapSet akvs q v)) := by
  induction kvs with
  | nil => simp [mapGet] at h
  | cons kv rest ih =>
    by_cases h2 : kv.1 = k
    · rw [show mapGet (kv :: rest) k = some kv.2 by simp [mapGet, h2]] at h
      have hv := Option.some.inj h
      simp [updateAssetInner, h2, hv, mapGet]
    · rw [show mapGet (kv :: rest) k = mapGet rest k by simp [mapGet, h2]] at h
      simp [updateAssetInner, h2, mapGet, ih h]

theorem updateAssetInner_frame (kvs : Dict) (k q : String) (v : JValue)
    (x : String) (hx : x ≠ k) :
    mapGet (updateAssetInner kvs k q v) x = mapGet kvs x := by
  induction kvs with
  | nil => simp [updateAssetInner]
  | cons kv rest ih =>
    by_cases h2 : kv.1 = k
    · have h3 : ¬ (k = x) := fun hh => hx hh.symm
      have h4 : ¬ (kv.1 = x) := by rw [h2]; exact h3
      simp [updateAssetInner, h2, mapGet, h3, h4]
    · by_cases h5 : kv.1 = x
      · simp [updateAssetInner, h2, mapGet, h5, hx]
      · simp [updateAssetInner, h2, mapGet, h5, ih]

theorem allGroups_lookup (d : Dict) (hA : allGroupsAreDicts d = true)
    (p : String) (v : JValue) (h : mapGet d p = some v) :
    ∃ g, v = JValue.obj g := by
  induction d with
  | nil => simp [mapGet] at h
  | cons kv rest ih =>
    rw [allGroupsAreDicts, List.all_cons, Bool.and_eq_true] at hA
    by_cases h2 : kv.1 = p
    · rw [show mapGet (kv :: rest) p = some kv.2 by simp [mapGet, h2]] at h
      obtain rfl := Option.some.inj h
      revert hA
      cases kv.2 <;> simp
    · rw [show mapGet (kv :: rest) p = mapGet rest p by simp [mapGet, h2]] at h
      exact ih hA.2 h

theorem allGroups_updateGroupParam (main : Dict) (p q : String) (v : JValue)
    (hA : allGroupsAreDicts main = true) :
    allGroupsAreDicts (updateGroupParam main p q v) = true := by
  induction main with
  | nil => simp [updateGroupParam, allGroupsAreDicts]
  | cons kv rest ih =>
    rw [allGroupsAreDicts, List.all_cons, Bool.and_eq_true] at hA
    by_cases h2 : kv.1 = p
    · rw [updateGroupParam, if_pos h2, allGroupsAreDicts, List.all_cons, Bool.and_eq_true]
      refine ⟨?_, hA.2⟩
      revert hA
      cases kv.2 <;> simp
    · rw [updateGroupParam, if_neg h2, allGroupsAreDicts, List.all_cons, Bool.and_eq_true]
      exact ⟨hA.1, ih hA.2⟩

theorem allGroups_updateAssetParam (main : Dict) (p k q : String) (v : JValue)
    (hA : allGroupsAreDicts main = true) :
    allGroupsAreDicts (updateAssetParam main p k q v) = true := by
  induction main with
  | nil => simp [updateAssetParam, allGroupsAreDicts]
  | cons kv rest ih =>
    rw [allGroupsAreDicts, List.all_cons, Bool.and_eq_true] at hA
    by_cases h2 : kv.1 = p
    · rw [updateAssetParam, if_pos h2, allGroupsAreDicts, List.all_cons, Bool.and_eq_true]
      refine ⟨?_, hA.2⟩
      revert hA
      cases kv.2 <;> simp
    · rw [updateAssetParam, if_neg h2, allGroupsAreDicts, List.all_cons, Bool.and_eq_true]
      exact ⟨hA.1, ih hA.2⟩

theorem mapGet_split {α : Type} (m : List (String × α)) (k : String) (v : α)
    (h : mapGet m k = some v) :
    ∃ pre post, m = pre ++ (k, v) :: post
      ∧ k ∉ pre.map (fun kv => kv.1) := by
  induction m with
  | nil => simp [mapGet] at h
  | cons kv rest ih =>
    by_cases h2 : kv.1 = k
    · rw [show mapGet (kv :: rest) k = some kv.2 by simp [mapGet, h2]] at h
      have hv := Option.some.inj h
      refine ⟨[], rest, ?_, by simp⟩
      have : kv = (k, v) := Prod.ext h2 hv
      rw [this]
      rfl
    · rw [show mapGet (kv :: rest) k = mapGet rest k by simp [mapGet, h2]] at h
      obtain ⟨pre, post, he, hn⟩ := ih h
      refine ⟨kv :: pre, post, by rw [he]; rfl, ?_⟩
      simp only [List.map_cons, List.mem_cons]
      rintro (h3 | h3)
      · exact h2 h3.symm
      · exact hn h3

theorem processSubParam_objish_keys (reqList' : List String)
    (knownExtra : List (String × KnownExtraInfo)) (grp k : String)
    (st : CompareState) (q : String) :
    (allGroupsAreDicts st.1 = true →
      allGroupsAreDicts (processSubParam reqList' knownExtra true grp k st q).1 = true)
  ∧ dictKeys (processSubParam reqList' knownExtra true grp k st q).1
      = dictKeys st.1 := by
  by_cases hq : q ∈ reqList'
  · cases hfind : knownExtra.find? (fun kv => kv.1 = q) with
    | none =>
      simp only [processSubParam, if_pos hq, hfind]
      exact ⟨fun h => h, trivial⟩
    | some info =>
      by_cases hk : k = "non-asset"
      · simp only [processSubParam, if_pos hq, hfind, if_pos hk]
        exact ⟨fun h => allGroups_updateGroupParam st.1 grp q _ h,
          updateGroupParam_keys st.1 grp q _⟩
      · simp only [processSubParam, if_pos hq, hfind, if_neg hk]
        exact ⟨fun h => allGroups_updateAssetParam st.1 grp k q _ h,
          updateAssetParam_keys st.1 grp k q _⟩
  · simp only [processSubParam, if_neg hq]
    exact ⟨fun h => h, trivial⟩

theorem processSubParam_frame_other (reqList' : List String)
    (knownExtra : List (String × KnownExtraInfo)) (grp k : String)
    (st : CompareState) (q x : String) (hx : x ≠ grp) :
    mapGet (processSubParam reqList' knownExtra true grp k st q).1 x
      = mapGet st.1 x
  ∧ mapGet (processSubParam reqList' knownExtra true grp k st q).2.1 x
      = mapGet st.2.1 x := by
  by_cases hq : q ∈ reqList'
  · cases hfind : knownExtra.find? (fun kv => kv.1 = q) with
    | none =>
      simp only [processSubParam, if_pos hq, hfind]
      exact ⟨trivial, appendMissing_frame st.2.1 grp q x hx⟩
    | some info =>
      by_cases hk : k = "non-asset"
      · simp only [processSubParam, if_pos hq, hfind, if_pos hk]
        exact ⟨updateGroupParam_frame st.1 grp q _ x hx, trivial⟩
      · simp only [processSubParam, if_pos hq, hfind, if_neg hk]
        exact ⟨updateAssetParam_frame st.1 grp k q _ x hx, trivial⟩
  · simp only [processSubParam, if_neg hq]
    exact ⟨trivial, trivial⟩

theorem processSubParam_missok (reqList' : List String)
    (knownExtra : List (String × KnownExtraInfo)) (grp k mp sp : String)
    (info : KnownExtraInfo)
    (hke : knownExtra.find? (fun kv => kv.1 = sp) = some ⟨sp, info⟩)
    (st : CompareState) (q : String)
    (hM : ¬ ∃ l, mapGet st.2.1 mp = some (some l) ∧ sp ∈ l) :
    ¬ ∃ l, mapGet (processSubParam reqList' knownExtra true grp k st q).2.1 mp
        = some (some l) ∧ sp ∈ l := by
  by_cases hq : q ∈ reqList'
  · cases hfind : knownExtra.find? (fun kv => kv.1 = q) with
    | none =>
      have hqs : sp ≠ q := by
        intro hh
        rw [← hh] at hfind
        rw [hke] at hfind
        exact Option.noConfusion hfind
      simp only [processSubParam, if_pos hq, hfind]
      by_cases hgrp : grp = mp
      · subst hgrp
        exact appendMissing_not_mem_sp st.2.1 grp q sp hqs hM
      · rintro ⟨l, hl, hsp⟩
        rw [appendMissing_frame st.2.1 grp q mp (fun hh => hgrp hh.symm)] at hl
        exact hM ⟨l, hl, hsp⟩
    | some info' =>
      by_cases hk : k = "non-asset"
      · simp only [processSubParam, if_pos hq, hfind, if_pos hk]
        exact hM
      · simp only [processSubParam, if_pos hq, hfind, if_neg hk]
        exact hM
  · simp only [processSubParam, if_neg hq]
    exact hM

theorem processSubParams_append (reqOpt : Option (List String))
    (knownExtra : List (String × KnownExtraInfo)) (setD : Bool) (grp : String)
    (l1 l2 : List (String × List String)) (st : CompareState) :
    processSubParams reqOpt knownExtra setD grp (l1 ++ l2) st
      = processSubParams reqOpt knownExtra setD grp l2
          (processSubParams reqOpt knownExtra setD grp l1 st) := by
  induction l1 generalizing st with
  | nil => rfl
  | cons kn rest ih =>
    obtain ⟨k', names⟩ := kn
    simp only [List.cons_append, processSubParams]
    exact ih _

theorem processGroups_append (required : List (String × Option (List String)))
    (knownExtra : List (String × KnownExtraInfo))
    (nag ag : List String) (setD : Bool)
    (L1 L2 : List String) (st : CompareState) :
    processGroups required knownExtra nag ag setD (L1 ++ L2) st
      = (match processGroups required knownExtra nag ag setD L1 st with
         | Except.ok st' => processGroups required knownExtra nag ag setD L2 st'
         | Except.error e => Except.error e) := by
  induction L1 generalizing st with
  | nil => rfl
  | cons p rest ih =>
    simp only [List.cons_append, processGroups]
    cases processGroup required knownExtra nag ag setD st p with
    | error e => rfl
    | ok st' => exact ih st'

theorem processSubParams_invariant (P : CompareState → Prop)
    (reqOpt : Option (List String))
    (knownExtra : List (String × KnownExtraInfo)) (setD : Bool) (grp : String) :
    ∀ (subs : List (String × List String)) (st : CompareState), P st →
    (∀ (reqList' : List String) (k' : String) (names : List String) (q : String)
        (st' : CompareState), reqOpt = some reqList' → (k', names) ∈ subs →
        P st' → P (processSubParam reqList' knownExtra setD grp k' st' q)) →
    P (processSubParams reqOpt knownExtra setD grp subs st) := by
  intro subs
  induction subs with
  | nil => intro st h _; exact h
  | cons kn rest ih =>
    intro st h hstep
    obtain ⟨k', names⟩ := kn
    simp only [processSubParams]
    cases reqOpt with
    | none =>
      exact ih st h
        (fun rl k n q st' hr hm hp => hstep rl k n q st' hr (List.mem_cons_of_mem _ hm) hp)
    | some reqList' =>
      refine ih _ ?_
        (fun rl k n q st' hr hm hp => hstep rl k n q st' hr (List.mem_cons_of_mem _ hm) hp)
      exact foldl_invariant P _ _ st h
        (fun st' q hq hp => hstep reqList' k' names q st' rfl (List.mem_cons_self _ _) hp)

theorem processGroups_other (required : List (String × Option (List String)))
    (knownExtra : List (String × KnownExtraInfo))
    (nag ag : List String) (mp : String) (K : List String)
    (hkinds : groupKindsCover required nag ag K = true) :
    ∀ (L : List String) (st : CompareState),
    (∀ p ∈ L, p ≠ mp) → (∀ p ∈ L, p ∈ K) →
    allGroupsAreDicts st.1 = true → dictKeys st.1 = K →
    ∃ st', processGroups required knownExtra nag ag true L st = Except.ok st'
      ∧ mapGet st'.1 mp = mapGet st.1 mp
      ∧ mapGet st'.2.1 mp = mapGet st.2.1 mp
      ∧ allGroupsAreDicts st'.1 = true
      ∧ dictKeys st'.1 = K := by
  intro L
  induction L with
  | nil =>
    intro st _ _ hA hK
    exact ⟨st, rfl, rfl, rfl, hA, hK⟩
  | cons p rest ih =>
    intro st hne hmem hA hK
    have hpne : p ≠ mp := hne p (by simp)
    have hpK : p ∈ K := hmem p (by simp)
    have hgroup : ∃ st1, processGroup required knownExtra nag ag true st p
        = Except.ok st1
        ∧ mapGet st1.1 mp = mapGet st.1 mp
        ∧ mapGet st1.2.1 mp = mapGet st.2.1 mp
        ∧ allGroupsAreDicts st1.1 = true
        ∧ dictKeys st1.1 = K := by
      cases hreqp : mapGet required p with
      | none =>
        refine ⟨(st.1, st.2.1, mapSet st.2.2.1 p [], st.2.2.2), ?_, rfl, rfl, hA, hK⟩
        simp [processGroup, hreqp]
      | some reqOpt =>
        have hcover : p ∈ nag ∨ p ∈ ag := by
          have h1 := (List.all_eq_true.mp hkinds) p hpK
          rw [hreqp] at h1
          simpa using h1
        have hpc : p ∈ dictKeys st.1 := by rw [hK]; exact hpK
        obtain ⟨v, hv⟩ := mapGet_mem_keys st.1 p hpc
        obtain ⟨g, rfl⟩ := allGroups_lookup st.1 hA p v hv
        have hinv : ∀ (subs : List (String × List String)),
            (fun s => mapGet s.1 mp = mapGet st.1 mp
              ∧ mapGet s.2.1 mp = mapGet st.2.1 mp
              ∧ allGroupsAreDicts s.1 = true
              ∧ dictKeys s.1 = K)
            (processSubParams reqOpt knownExtra true p subs st) := by
          intro subs
          refine processSubParams_invariant
            (fun s => mapGet s.1 mp = mapGet st.1 mp
              ∧ mapGet s.2.1 mp = mapGet st.2.1 mp
              ∧ allGroupsAreDicts s.1 = true
              ∧ dictKeys s.1 = K)
            reqOpt knownExtra true p subs st ⟨rfl, rfl, hA, hK⟩ ?_
          intro rl k n q s' _ _ hp
          obtain ⟨h1, h2, h3, h4⟩ := hp
          obtain ⟨f1, f2⟩ := processSubParam_frame_other rl knownExtra p k s' q mp
            (fun hh => hpne hh.symm)
          obtain ⟨o1, o2⟩ := processSubParam_objish_keys rl knownExtra p k s' q
          exact ⟨f1.trans h1, f2.trans h2, o1 h3, o2.trans h4⟩
        by_cases hnag : p ∈ nag
        · refine ⟨processSubParams reqOpt knownExtra true p
            [("non-asset", dictKeys g)] st, ?_, hinv _⟩
          simp [processGroup, hreqp, hnag, dictLookup, hv]
        · have hag : p ∈ ag := hcover.resolve_left hnag
          refine ⟨processSubParams reqOpt knownExtra true p
            (g.map (fun akv => (akv.1, assetProvidedNames akv.2))) st, ?_, hinv _⟩
          simp [processGroup, hreqp, hnag, hag, dictLookup, hv]
    obtain ⟨st1, hpg, hm1, hm2, hA1, hK1⟩ := hgroup
    obtain ⟨st', hrest, hm1', hm2', hA', hK'⟩ := ih st1
      (fun x hx => hne x (List.mem_cons_of_mem _ hx))
      (fun x hx => hmem x (List.mem_cons_of_mem _ hx)) hA1 hK1
    refine ⟨st', ?_, hm1'.trans hm1, hm2'.trans hm2, hA', hK'⟩
    simp only [processGroups, hpg]
    exact hrest

theorem compare_focus_skeleton
    (required : List (String × Option (List String)))
    (knownExtra : List (String × KnownExtraInfo))
    (nag ag : List String) (main₀ : Dict) (mp sp : String)
    (T : JValue → Prop)
    (hnodup : (dictKeys main₀).Nodup)
    (hdicts : allGroupsAreDicts main₀ = true)
    (hkinds : groupKindsCover required nag ag (dictKeys main₀) = true)
    (hmp_in : mp ∈ dictKeys main₀)
    (core : ∀ st : CompareState, mapGet st.1 mp = mapGet main₀ mp →
        (¬ ∃ l, mapGet st.2.1 mp = some (some l) ∧ sp ∈ l) →
        allGroupsAreDicts st.1 = true → dictKeys st.1 = dictKeys main₀ →
        ∃ st', processGroup required knownExtra nag ag true st mp = Except.ok st'
          ∧ (∃ w, mapGet st'.1 mp = some w ∧ T w)
          ∧ (¬ ∃ l, mapGet st'.2.1 mp = some (some l) ∧ sp ∈ l)
          ∧ allGroupsAreDicts st'.1 = true
          ∧ dictKeys st'.1 = dictKeys main₀) :
    ∃ stF, compareInputParametersWithReference required knownExtra nag ag main₀
        true false = Except.ok stF
      ∧ (∃ w, mapGet stF.1 mp = some w ∧ T w)
      ∧ (¬ ∃ l, mapGet stF.2.1 mp = some (some l) ∧ sp ∈ l) := by
  obtain ⟨A, B, hsplit⟩ := List.append_of_mem hmp_in
  have hnd := hnodup
  rw [hsplit, List.nodup_append] at hnd
  obtain ⟨hndA, hndB, hdisj⟩ := hnd
  have hmpA : mp ∉ A := fun hmem => hdisj hmem (by simp)
  have hmpB : mp ∉ B := (List.nodup_cons.mp hndB).1
  set st0 : CompareState := (main₀, [], [], []) with hst0
  obtain ⟨st1, hg1, hm11, hm12, hA1, hK1⟩ := processGroups_other required knownExtra
    nag ag mp (dictKeys main₀) hkinds A st0
    (fun p hp hh => hmpA (hh ▸ hp))
    (fun p hp => by rw [hsplit]; exact List.mem_append_left _ hp)
    hdicts rfl
  have hM1 : ¬ ∃ l, mapGet st1.2.1 mp = some (some l) ∧ sp ∈ l := by
    rintro ⟨l, hl, -⟩
    rw [hm12] at hl
    simp [hst0, mapGet] at hl
  obtain ⟨st2, hg2, hT2, hM2, hA2, hK2⟩ := core st1 hm11 hM1 hA1 hK1
  obtain ⟨st3, hg3, hm31, hm32, hA3, hK3⟩ := processGroups_other required knownExtra
    nag ag mp (dictKeys main₀) hkinds B st2
    (fun p hp hh => hmpB (hh ▸ hp))
    (fun p hp => by rw [hsplit]; exact List.mem_append_right _ (List.mem_cons_of_mem _ hp))
    hA2 hK2
  have hgall : processGroups required knownExtra nag ag true (dictKeys main₀) st0
      = Except.ok st3 := by
    rw [hsplit, processGroups_append, hg1]
    simp only [processGroups, hg2]
    exact hg3
  refine ⟨(st3.1, addAbsentGroups (dictKeys st3.1) required st3.2.1,
    st3.2.2.1, st3.2.2.2), ?_, ?_, ?_⟩
  · simp only [compareInputParametersWithReference, hgall]
    simp
  · obtain ⟨w, hw, hT⟩ := hT2
    exact ⟨w, hm31.trans hw, hT⟩
  · show ¬ ∃ l, mapGet (addAbsentGroups (dictKeys st3.1) required st3.2.1) mp
        = some (some l) ∧ sp ∈ l
    rw [addAbsentGroups_preserves required (dictKeys st3.1) st3.2.1 mp
      (by rw [hK3]; exact hmp_in)]
    rintro ⟨l, hl, hsp⟩
    rw [hm32] at hl
    exact hM2 ⟨l, hl, hsp⟩

theorem processGroup_focus_nonasset
    (required : List (String × Option (List String)))
    (knownExtra : List (String × KnownExtraInfo))
    (nag ag : List String) (mp : String) (kvs : Dict) (reqList : List String)
    (sp : String) (info : KnownExtraInfo)
    (hmp : mp ∈ nag)
    (hreq : mapGet required mp = some (some reqList))
    (hsp : sp ∈ reqList)
    (hke : knownExtra.find? (fun kv => kv.1 = sp) = some ⟨sp, info⟩)
    (hns : sp ∉ dictKeys kvs)
    (st : CompareState)
    (hmain : mapGet st.1 mp = some (JValue.obj kvs))
    (hM : ¬ ∃ l, mapGet st.2.1 mp = some (some l) ∧ sp ∈ l)
    (hA : allGroupsAreDicts st.1 = true) :
    ∃ st', processGroup required knownExtra nag ag true st mp = Except.ok st'
      ∧ (∃ kvs', mapGet st'.1 mp = some (JValue.obj kvs')
           ∧ mapGet kvs' sp = some (knownExtraNode info))
      ∧ (¬ ∃ l, mapGet st'.2.1 mp = some (some l) ∧ sp ∈ l)
      ∧ allGroupsAreDicts st'.1 = true
      ∧ dictKeys st'.1 = dictKeys st.1 := by
  classical
  set f := processSubParam reqList knownExtra true mp "non-asset" with hf
  set nm := symmetricDiff (dictKeys kvs) reqList with hnm
  have hspnm : sp ∈ nm := symmetricDiff_mem_right (dictKeys kvs) reqList sp hsp hns
  obtain ⟨s, t, hsplit⟩ := List.append_of_mem hspnm
  have hnd : nm.Nodup := symmetricDiff_nodup (dictKeys kvs) reqList
  rw [hsplit] at hnd
  rw [List.nodup_append] at hnd
  obtain ⟨hnds, hndt, hdisj⟩ := hnd
  have hsps : sp ∉ s := fun hmem => hdisj hmem (by simp)
  have hspt : sp ∉ t := (List.nodup_cons.mp hndt).1
  have hpre : (∃ kvs', mapGet (s.foldl f st).1 mp = some (JValue.obj kvs') ∧ True)
      ∧ (¬ ∃ l, mapGet (s.foldl f st).2.1 mp = some (some l) ∧ sp ∈ l) := by
    refine foldl_invariant
      (fun s' => (∃ kvs', mapGet s'.1 mp = some (JValue.obj kvs') ∧ True)
        ∧ (¬ ∃ l, mapGet s'.2.1 mp = some (some l) ∧ sp ∈ l))
      f s st ⟨⟨kvs, hmain, trivial⟩, hM⟩ ?_
    intro s' a ha hp
    have haq : a ≠ sp := fun hh => hsps (hh ▸ ha)
    exact processSubParam_step_preserve reqList knownExtra mp sp (fun _ => True)
      (fun _ _ _ _ _ => trivial) s' a haq hp.1 hp.2
  have hmid := processSubParam_step_establish reqList knownExtra mp sp info hsp hke
    (s.foldl f st) ⟨hpre.1.choose, hpre.1.choose_spec.1⟩ hpre.2
  have hpost : (∃ kvs'', mapGet (nm.foldl f st).1 mp = some (JValue.obj kvs'')
        ∧ mapGet kvs'' sp = some (knownExtraNode info))
      ∧ (¬ ∃ l, mapGet (nm.foldl f st).2.1 mp = some (some l) ∧ sp ∈ l) := by
    rw [hsplit, List.foldl_append, List.foldl_cons]
    refine foldl_invariant
      (fun s' => (∃ kvs'', mapGet s'.1 mp = some (JValue.obj kvs'')
          ∧ mapGet kvs'' sp = some (knownExtraNode info))
        ∧ (¬ ∃ l, mapGet s'.2.1 mp = some (some l) ∧ sp ∈ l))
      f t (f (s.foldl f st) sp) hmid ?_
    intro s' a ha hp
    have haq : a ≠ sp := fun hh => hspt (hh ▸ ha)
    obtain ⟨⟨kvs'', hm1, hl1⟩, hmiss⟩ := hp
    exact processSubParam_step_preserve reqList knownExtra mp sp
      (fun d => mapGet d sp = some (knownExtraNode info))
      (fun kvs' q v hq hr => by
        show mapGet (mapSet kvs' q v) sp = some (knownExtraNode info)
        rw [mapGet_mapSet_ne kvs' q sp v (fun hh => hq hh.symm)]
        exact hr)
      s' a haq ⟨kvs'', hm1, hl1⟩ hmiss
  have hok : allGroupsAreDicts (nm.foldl f st).1 = true
      ∧ dictKeys (nm.foldl f st).1 = dictKeys st.1 := by
    refine foldl_invariant
      (fun s' => allGroupsAreDicts s'.1 = true ∧ dictKeys s'.1 = dictKeys st.1)
      f nm st ⟨hA, rfl⟩ ?_
    intro s' a _ hp
    obtain ⟨o1, o2⟩ := processSubParam_objish_keys reqList knownExtra mp "non-asset" s' a
    exact ⟨o1 hp.1, o2.trans hp.2⟩
  refine ⟨nm.foldl f st, ?_, hpost.1, hpost.2, hok.1, hok.2⟩
  simp only [processGroup, hreq, if_pos hmp]
  rw [show dictLookup st.1 mp = some (JValue.obj kvs) from hmain]
  simp only [processSubParams, hnm, hf]

theorem processSubParam_main_asset (reqList' : List String)
    (knownExtra : List (String × KnownExtraInfo)) (grp k' : String)
    (st : CompareState) (q : String) (hk' : ¬ (k' = "non-asset")) :
    (processSubParam reqList' knownExtra true grp k' st q).1 = st.1
  ∨ ∃ v, (processSubParam reqList' knownExtra true grp k' st q).1
      = updateAssetParam st.1 grp k' q v := by
  by_cases hq : q ∈ reqList'
  · cases hfind : knownExtra.find? (fun kv => kv.1 = q) with
    | none =>
      left
      simp [processSubParam, hq, hfind]
    | some info =>
      right
      exact ⟨knownExtraNode info.2, by simp [processSubParam, hq, hfind, hk']⟩
  · left
    simp [processSubParam, hq]

theorem processGroup_focus_asset
    (required : List (String × Option (List String)))
    (knownExtra : List (String × KnownExtraInfo))
    (nag ag : List String) (mp : String) (kvs : Dict) (reqList : List String)
    (sp : String) (info : KnownExtraInfo) (k : String) (akvs : Dict)
    (hmpn : mp ∉ nag) (hmpa : mp ∈ ag)
    (hreq : mapGet required mp = some (some reqList))
    (hsp : sp ∈ reqList)
    (hke : knownExtra.find? (fun kv => kv.1 = sp) = some ⟨sp, info⟩)
    (hkvsnd : (dictKeys kvs).Nodup)
    (hnoNA : "non-asset" ∉ dictKeys kvs)
    (hak : mapGet kvs k = some (JValue.obj akvs))
    (hns : sp ∉ dictKeys akvs)
    (st : CompareState)
    (hmain : mapGet st.1 mp = some (JValue.obj kvs))
    (hM : ¬ ∃ l, mapGet st.2.1 mp = some (some l) ∧ sp ∈ l)
    (hA : allGroupsAreDicts st.1 = true) :
    ∃ st', processGroup required knownExtra nag ag true st mp = Except.ok st'
      ∧ (∃ kvs' akvs', mapGet st'.1 mp = some (JValue.obj kvs')
           ∧ mapGet kvs' k = some (JValue.obj akvs')
           ∧ mapGet akvs' sp = some (knownExtraNode info))
      ∧ (¬ ∃ l, mapGet st'.2.1 mp = some (some l) ∧ sp ∈ l)
      ∧ allGroupsAreDicts st'.1 = true
      ∧ dictKeys st'.1 = dictKeys st.1 := by
  classical
  have hkmem : k ∈ dictKeys kvs := mem_keys_of_mapGet kvs k _ hak
  have hkNA : ¬ (k = "non-asset") := fun hh => hnoNA (hh ▸ hkmem)
  obtain ⟨pre, post, hkv, hkpre⟩ := mapGet_split kvs k (JValue.obj akvs) hak
  have hkeys2 : dictKeys kvs
      = pre.map (fun kv => kv.1) ++ k :: post.map (fun kv => kv.1) := by
    rw [hkv]
    simp [dictKeys]
  have hnd2 := hkvsnd
  rw [hkeys2, List.nodup_append] at hnd2
  obtain ⟨-, hndk, -⟩ := hnd2
  have hkpost : k ∉ post.map (fun kv => kv.1) := (List.nodup_cons.mp hndk).1
  have hsubs : kvs.map (fun akv => (akv.1, assetProvidedNames akv.2))
      = pre.map (fun akv => (akv.1, assetProvidedNames akv.2))
        ++ (k, dictKeys akvs)
          :: post.map (fun akv => (akv.1, assetProvidedNames akv.2)) := by
    rw [hkv]
    simp [assetProvidedNames]
  set g := fun akv : String × JValue => (akv.1, assetProvidedNames akv.2) with hg
  set fk := processSubParam reqList knownExtra true mp k with hfk
  -- facts about asset names drawn from the two side segments
  have hsideNames : ∀ (side : Dict), (∀ x ∈ side.map (fun kv => kv.1), x ∈ dictKeys kvs) →
      ∀ kn ∈ side.map g, ¬ (kn.1 = "non-asset") := by
    intro side hsub kn hkn
    obtain ⟨akv, hmemp, rfl⟩ := List.mem_map.mp hkn
    intro hh
    exact hnoNA (hh ▸ hsub akv.1 (List.mem_map.mpr ⟨akv, hmemp, rfl⟩))
  have hpreSub : ∀ x ∈ pre.map (fun kv => kv.1), x ∈ dictKeys kvs := by
    intro x hx
    rw [hkeys2]
    exact List.mem_append_left _ hx
  have hpostSub : ∀ x ∈ post.map (fun kv => kv.1), x ∈ dictKeys kvs := by
    intro x hx
    rw [hkeys2]
    exact List.mem_append_right _ (List.mem_cons_of_mem _ hx)
  -- stage 1: the assets before k
  have hP0 : (fun s' => (∃ kvs', mapGet s'.1 mp = some (JValue.obj kvs')
          ∧ mapGet kvs' k = some (JValue.obj akvs))
        ∧ (¬ ∃ l, mapGet s'.2.1 mp = some (some l) ∧ sp ∈ l)
        ∧ allGroupsAreDicts s'.1 = true
        ∧ dictKeys s'.1 = dictKeys st.1)
      (processSubParams (some reqList) knownExtra true mp (pre.map g) st) := by
    refine processSubParams_invariant
      (fun s' => (∃ kvs', mapGet s'.1 mp = some (JValue.obj kvs')
          ∧ mapGet kvs' k = some (JValue.obj akvs))
        ∧ (¬ ∃ l, mapGet s'.2.1 mp = some (some l) ∧ sp ∈ l)
        ∧ allGroupsAreDicts s'.1 = true
        ∧ dictKeys s'.1 = dictKeys st.1)
      (some reqList) knownExtra true mp (pre.map g) st
      ⟨⟨kvs, hmain, hak⟩, hM, hA, rfl⟩ ?_
    intro rl k' n q s' hro hmem hp
    obtain ⟨⟨kvs₁, hm₁, hk₁⟩, hMi, hAi, hKi⟩ := hp
    have hk'NA : ¬ (k' = "non-asset") := hsideNames pre hpreSub (k', n) hmem
    have hk'k : ¬ (k' = k) := by
      intro hh
      obtain ⟨akv, hmemp, hpair⟩ := List.mem_map.mp hmem
      have : akv.1 = k' := congrArg Prod.fst hpair
      exact hkpre (hh ▸ this ▸ List.mem_map.mpr ⟨akv, hmemp, rfl⟩)
    refine ⟨?_, processSubParam_missok rl knownExtra mp k' mp sp info hke s' q hMi,
      (processSubParam_objish_keys rl knownExtra mp k' s' q).1 hAi,
      ((processSubParam_objish_keys rl knownExtra mp k' s' q).2).trans hKi⟩
    rcases processSubParam_main_asset rl knownExtra mp k' s' q hk'NA with heq | ⟨v, heq⟩
    · exact ⟨kvs₁, heq ▸ hm₁, hk₁⟩
    · refine ⟨updateAssetInner kvs₁ k' q v, ?_, ?_⟩
      · rw [heq]
        exact mapGet_updateAssetParam_self s'.1 mp k' q v kvs₁ hm₁
      · rw [updateAssetInner_frame kvs₁ k' q v k (fun hh => hk'k hh.symm)]
        exact hk₁
  -- stage 2: asset k itself
  set stPre := processSubParams (some reqList) knownExtra true mp (pre.map g) st
    with hstPre
  set nmk := symmetricDiff (dictKeys akvs) reqList with hnmk
  have hspnmk : sp ∈ nmk := symmetricDiff_mem_right (dictKeys akvs) reqList sp hsp hns
  obtain ⟨s, t, hsplitk⟩ := List.append_of_mem hspnmk
  have hndk2 : nmk.Nodup := symmetricDiff_nodup (dictKeys akvs) reqList
  rw [hsplitk, List.nodup_append] at hndk2
  obtain ⟨-, hndt, hdisjk⟩ := hndk2
  have hsps : sp ∉ s := fun hmem => hdisjk hmem (by simp)
  have hspt : sp ∉ t := (List.nodup_cons.mp hndt).1
  -- one step of the asset-k fold preserves the two-level dict shape
  have hstepK : ∀ (s' : CompareState) (a : String),
      ((∃ kvs' akvs', mapGet s'.1 mp = some (JValue.obj kvs')
          ∧ mapGet kvs' k = some (JValue.obj akvs'))
        ∧ (¬ ∃ l, mapGet s'.2.1 mp = some (some l) ∧ sp ∈ l)
        ∧ allGroupsAreDicts s'.1 = true
        ∧ dictKeys s'.1 = dictKeys st.1) →
      ((∃ kvs' akvs', mapGet (fk s' a).1 mp = some (JValue.obj kvs')
          ∧ mapGet kvs' k = some (JValue.obj akvs'))
        ∧ (¬ ∃ l, mapGet (fk s' a).2.1 mp = some (some l) ∧ sp ∈ l)
        ∧ allGroupsAreDicts (fk s' a).1 = true
        ∧ dictKeys (fk s' a).1 = dictKeys st.1) := by
    intro s' a hp
    obtain ⟨⟨kvs₁, akvs₁, hm₁, hk₁⟩, hMi, hAi, hKi⟩ := hp
    refine ⟨?_, processSubParam_missok reqList knownExtra mp k mp sp info hke s' a hMi,
      (processSubParam_objish_keys reqList knownExtra mp k s' a).1 hAi,
      ((processSubParam_objish_keys reqList knownExtra mp k s' a).2).trans hKi⟩
    rcases processSubParam_main_asset reqList knownExtra mp k s' a hkNA with heq | ⟨v, heq⟩
    · exact ⟨kvs₁, akvs₁, heq ▸ hm₁, hk₁⟩
    · refine ⟨updateAssetInner kvs₁ k a v, mapSet akvs₁ a v, ?_, ?_⟩
      · rw [heq]
        exact mapGet_updateAssetParam_self s'.1 mp k a v kvs₁ hm₁
      · exact updateAssetInner_self kvs₁ k a v akvs₁ hk₁
  have hPs : (∃ kvs' akvs', mapGet (s.foldl fk stPre).1 mp = some (JValue.obj kvs')
        ∧ mapGet kvs' k = some (JValue.obj akvs'))
      ∧ (¬ ∃ l, mapGet (s.foldl fk stPre).2.1 mp = some (some l) ∧ sp ∈ l)
      ∧ allGroupsAreDicts (s.foldl fk stPre).1 = true
      ∧ dictKeys (s.foldl fk stPre).1 = dictKeys st.1 := by
    obtain ⟨⟨kvs₁, hm₁, hk₁⟩, hMi, hAi, hKi⟩ := hP0
    exact foldl_invariant
      (fun s' => (∃ kvs' akvs', mapGet s'.1 mp = some (JValue.obj kvs')
          ∧ mapGet kvs' k = some (JValue.obj akvs'))
        ∧ (¬ ∃ l, mapGet s'.2.1 mp = some (some l) ∧ sp ∈ l)
        ∧ allGroupsAreDicts s'.1 = true
        ∧ dictKeys s'.1 = dictKeys st.1)
      fk s stPre ⟨⟨kvs₁, akvs, hm₁, hk₁⟩, hMi, hAi, hKi⟩
      (fun s' a _ hp => hstepK s' a hp)
  -- the sp step writes the default node into asset k
  have hmidK : (∃ kvs' akvs', mapGet (fk (s.foldl fk stPre) sp).1 mp
          = some (JValue.obj kvs')
        ∧ mapGet kvs' k = some (JValue.obj akvs')
        ∧ mapGet akvs' sp = some (knownExtraNode info))
      ∧ (¬ ∃ l, mapGet (fk (s.foldl fk stPre) sp).2.1 mp = some (some l) ∧ sp ∈ l)
      ∧ allGroupsAreDicts (fk (s.foldl fk stPre) sp).1 = true
      ∧ dictKeys (fk (s.foldl fk stPre) sp).1 = dictKeys st.1 := by
    obtain ⟨⟨kvs₁, akvs₁, hm₁, hk₁⟩, hMi, hAi, hKi⟩ := hPs
    have hstep : fk (s.foldl fk stPre) sp
        = (updateAssetParam (s.foldl fk stPre).1 mp k sp (knownExtraNode info),
           (s.foldl fk stPre).2.1, (s.foldl fk stPre).2.2.1,
           (s.foldl fk stPre).2.2.2 ++ [Diag.knownExtraDefaultSet mp k sp]) := by
      rw [hfk]
      simp [processSubParam, hsp, hke, hkNA]
    refine ⟨?_, ?_, ?_, ?_⟩
    · rw [hstep]
      refine ⟨updateAssetInner kvs₁ k sp (knownExtraNode info),
        mapSet akvs₁ sp (knownExtraNode info), ?_, ?_, ?_⟩
      · exact mapGet_updateAssetParam_self _ mp k sp (knownExtraNode info) kvs₁ hm₁
      · exact updateAssetInner_self kvs₁ k sp (knownExtraNode info) akvs₁ hk₁
      · exact mapGet_mapSet_self akvs₁ sp (knownExtraNode info)
    · rw [hstep]
      exact hMi
    · exact (processSubParam_objish_keys reqList knownExtra mp k _ sp).1 hAi
    · exact ((processSubParam_objish_keys reqList knownExtra mp k _ sp).2).trans hKi
  -- the rest of asset k's parameters leave the inserted node in place
  have hPt : (∃ kvs' akvs', mapGet (nmk.foldl fk stPre).1 mp = some (JValue.obj kvs')
        ∧ mapGet kvs' k = some (JValue.obj akvs')
        ∧ mapGet akvs' sp = some (knownExtraNode info))
      ∧ (¬ ∃ l, mapGet (nmk.foldl fk stPre).2.1 mp = some (some l) ∧ sp ∈ l)
      ∧ allGroupsAreDicts (nmk.foldl fk stPre).1 = true
      ∧ dictKeys (nmk.foldl fk stPre).1 = dictKeys st.1 := by
    rw [hsplitk, List.foldl_append, List.foldl_cons]
    refine foldl_invariant
      (fun s' => (∃ kvs' akvs', mapGet s'.1 mp = some (JValue.obj kvs')
          ∧ mapGet kvs' k = some (JValue.obj akvs')
          ∧ mapGet akvs' sp = some (knownExtraNode info))
        ∧ (¬ ∃ l, mapGet s'.2.1 mp = some (some l) ∧ sp ∈ l)
        ∧ allGroupsAreDicts s'.1 = true
        ∧ dictKeys s'.1 = dictKeys st.1)
      fk t (fk (s.foldl fk stPre) sp) hmidK ?_
    intro s' a ha hp
    have haq : ¬ (a = sp) := fun hh => hspt (hh ▸ ha)
    obtain ⟨⟨kvs₁, akvs₁, hm₁, hk₁, hsp₁⟩, hMi, hAi, hKi⟩ := hp
    refine ⟨?_, processSubParam_missok reqList knownExtra mp k mp sp info hke s' a hMi,
      (processSubParam_objish_keys reqList knownExtra mp k s' a).1 hAi,
      ((processSubParam_objish_keys reqList knownExtra mp k s' a).2).trans hKi⟩
    rcases processSubParam_main_asset reqList knownExtra mp k s' a hkNA with heq | ⟨v, heq⟩
    · exact ⟨kvs₁, akvs₁, heq ▸ hm₁, hk₁, hsp₁⟩
    · refine ⟨updateAssetInner kvs₁ k a v, mapSet akvs₁ a v, ?_, ?_, ?_⟩
      · rw [heq]
        exact mapGet_updateAssetParam_self s'.1 mp k a v kvs₁ hm₁
      · exact updateAssetInner_self kvs₁ k a v akvs₁ hk₁
      · rw [mapGet_mapSet_ne akvs₁ a sp v (fun hh => haq hh.symm)]
        exact hsp₁
  -- stage 3: the assets after k
  have hPost : (fun s' => (∃ kvs' akvs', mapGet s'.1 mp = some (JValue.obj kvs')
          ∧ mapGet kvs' k = some (JValue.obj akvs')
          ∧ mapGet akvs' sp = some (knownExtraNode info))
        ∧ (¬ ∃ l, mapGet s'.2.1 mp = some (some l) ∧ sp ∈ l)
        ∧ allGroupsAreDicts s'.1 = true
        ∧ dictKeys s'.1 = dictKeys st.1)
      (processSubParams (some reqList) knownExtra true mp (post.map g)
        (nmk.foldl fk stPre)) := by
    refine processSubParams_invariant
      (fun s' => (∃ kvs' akvs', mapGet s'.1 mp = some (JValue.obj kvs')
          ∧ mapGet kvs' k = some (JValue.obj akvs')
          ∧ mapGet akvs' sp = some (knownExtraNode info))
        ∧ (¬ ∃ l, mapGet s'.2.1 mp = some (some l) ∧ sp ∈ l)
        ∧ allGroupsAreDicts s'.1 = true
        ∧ dictKeys s'.1 = dictKeys st.1)
      (some reqList) knownExtra true mp (post.map g)
      _ hPt ?_
    intro rl k' n q s' hro hmem hp
    obtain ⟨⟨kvs₁, akvs₁, hm₁, hk₁, hsp₁⟩, hMi, hAi, hKi⟩ := hp
    have hk'NA : ¬ (k' = "non-asset") := hsideNames post hpostSub (k', n) hmem
    have hk'k : ¬ (k' = k) := by
      intro hh
      obtain ⟨akv, hmemp, hpair⟩ := List.mem_map.mp hmem
      have : akv.1 = k' := congrArg Prod.fst hpair
      exact hkpost (hh ▸ this ▸ List.mem_map.mpr ⟨akv, hmemp, rfl⟩)
    refine ⟨?_, processSubParam_missok rl knownExtra mp k' mp sp info hke s' q hMi,
      (processSubParam_objish_keys rl knownExtra mp k' s' q).1 hAi,
      ((processSubParam_objish_keys rl knownExtra mp k' s' q).2).trans hKi⟩
    rcases processSubParam_main_asset rl knownExtra mp k' s' q hk'NA with heq | ⟨v, heq⟩
    · exact ⟨kvs₁, akvs₁, heq ▸ hm₁, hk₁, hsp₁⟩
    · refine ⟨updateAssetInner kvs₁ k' q v, akvs₁, ?_, ?_, hsp₁⟩
      · rw [heq]
        exact mapGet_updateAssetParam_self s'.1 mp k' q v kvs₁ hm₁
      · rw [updateAssetInner_frame kvs₁ k' q v k (fun hh => hk'k hh.symm)]
        exact hk₁
  -- assemble
  have hchain : processSubParams (some reqList) knownExtra true mp (kvs.map g) st
      = processSubParams (some reqList) knownExtra true mp (post.map g)
          (nmk.foldl fk stPre) := by
    rw [show kvs.map g
        = pre.map g ++ (k, dictKeys akvs) :: post.map g from hsubs]
    rw [processSubParams_append]
    simp only [processSubParams]
  obtain ⟨hT, hMf, hAf, hKf⟩ := hPost
  refine ⟨processSubParams (some reqList) knownExtra true mp (post.map g)
    (nmk.foldl fk stPre), ?_, hT, hMf, hAf, hKf⟩
  simp only [processGroup, hreq, if_neg hmpn, if_pos hmpa]
  rw [show dictLookup st.1 mp = some (JValue.obj kvs) from hmain]
  rw [← hchain]

/-- C9: `compare_input_parameters_with_reference` with `set_default=True`
writes into the caller's parameter dict (modelled by state passing: the
returned dict is the caller's object after the in-place mutation). For every
well-formed parameter dict — any number of groups, every group value a dict,
required groups drawn from the two hard-coded kind lists — and every
known-extra parameter `sp` required for a provided group `mp` but absent
from the provided sub-parameters, the node with the documented default unit
and value is inserted: under `main[mp][sp]` when `mp` is a non-asset group
(`utils/__init__.py` line 227), and under `main[mp][k][sp]` for the owning
asset `k` when `mp` is an asset group (line 239); in both cases `sp` is
excluded from the returned missing map. -/
theorem setDefaultInsertsDefaultAndSkipsMissing
    (required : List (String × Option (List String)))
    (knownExtra : List (String × KnownExtraInfo))
    (nonAssetGroups assetGroups : List String)
    (mainParameters : Dict) (mp : String) (kvs : Dict)
    (reqList : List String) (sp : String) (info : KnownExtraInfo)
    (hnodup : (dictKeys mainParameters).Nodup)
    (hdicts : allGroupsAreDicts mainParameters = true)
    (hkinds : groupKindsCover required nonAssetGroups assetGroups
      (dictKeys mainParameters) = true)
    (hmain : mapGet mainParameters mp = some (JValue.obj kvs))
    (hreq : mapGet required mp = some (some reqList))
    (hsp : sp ∈ reqList)
    (hke : knownExtra.find? (fun kv => kv.1 = sp) = some ⟨sp, info⟩) :
    (mp ∈ nonAssetGroups → sp ∉ dictKeys kvs →
      ∃ stF, compareInputParametersWithReference required knownExtra
          nonAssetGroups assetGroups mainParameters true false = Except.ok stF
        ∧ (∃ kvs', mapGet stF.1 mp = some (JValue.obj kvs')
             ∧ mapGet kvs' sp = some (knownExtraNode info))
        ∧ (¬ ∃ l, mapGet stF.2.1 mp = some (some l) ∧ sp ∈ l))
  ∧ (∀ (k : String) (akvs : Dict),
      mp ∉ nonAssetGroups → mp ∈ assetGroups →
      (dictKeys kvs).Nodup → "non-asset" ∉ dictKeys kvs →
      mapGet kvs k = some (JValue.obj akvs) → sp ∉ dictKeys akvs →
      ∃ stF, compareInputParametersWithReference required knownExtra
          nonAssetGroups assetGroups mainParameters true false = Except.ok stF
        ∧ (∃ kvs' akvs', mapGet stF.1 mp = some (JValue.obj kvs')
             ∧ mapGet kvs' k = some (JValue.obj akvs')
             ∧ mapGet akvs' sp = some (knownExtraNode info))
        ∧ (¬ ∃ l, mapGet stF.2.1 mp = some (some l) ∧ sp ∈ l)) := by
  have hmp_in : mp ∈ dictKeys mainParameters :=
    mem_keys_of_mapGet mainParameters mp _ hmain
  constructor
  · intro hmp hns
    have core : ∀ st : CompareState, mapGet st.1 mp = mapGet mainParameters mp →
        (¬ ∃ l, mapGet st.2.1 mp = some (some l) ∧ sp ∈ l) →
        allGroupsAreDicts st.1 = true → dictKeys st.1 = dictKeys mainParameters →
        ∃ st', processGroup required knownExtra nonAssetGroups assetGroups true st mp
            = Except.ok st'
          ∧ (∃ w, mapGet st'.1 mp = some w
              ∧ (∃ kvs', w = JValue.obj kvs'
                  ∧ mapGet kvs' sp = some (knownExtraNode info)))
          ∧ (¬ ∃ l, mapGet st'.2.1 mp = some (some l) ∧ sp ∈ l)
          ∧ allGroupsAreDicts st'.1 = true
          ∧ dictKeys st'.1 = dictKeys mainParameters := by
      intro st hmainst hMst hAst hKst
      rw [hmain] at hmainst
      obtain ⟨st', hpg, ⟨kvs', hm', hl'⟩, hM', hA', hK'⟩ := processGroup_focus_nonasset
        required knownExtra nonAssetGroups assetGroups mp kvs reqList sp info
        hmp hreq hsp hke hns st hmainst hMst hAst
      exact ⟨st', hpg, ⟨JValue.obj kvs', hm', kvs', rfl, hl'⟩, hM', hA',
        hK'.trans hKst⟩
    obtain ⟨stF, hcmp, ⟨w, hw, kvs', rfl, hlook⟩, hMf⟩ := compare_focus_skeleton
      required knownExtra nonAssetGroups assetGroups mainParameters mp sp
      (fun w => ∃ kvs', w = JValue.obj kvs'
        ∧ mapGet kvs' sp = some (knownExtraNode info))
      hnodup hdicts hkinds hmp_in core
    exact ⟨stF, hcmp, ⟨kvs', hw, hlook⟩, hMf⟩
  · intro k akvs hmpn hmpa hknd hnoNA hak hns
    have core : ∀ st : CompareState, mapGet st.1 mp = mapGet mainParameters mp →
        (¬ ∃ l, mapGet st.2.1 mp = some (some l) ∧ sp ∈ l) →
        allGroupsAreDicts st.1 = true → dictKeys st.1 = dictKeys mainParameters →
        ∃ st', processGroup required knownExtra nonAssetGroups assetGroups true st mp
            = Except.ok st'
          ∧ (∃ w, mapGet st'.1 mp = some w
              ∧ (∃ kvs' akvs', w = JValue.obj kvs'
                  ∧ mapGet kvs' k = some (JValue.obj akvs')
                  ∧ mapGet akvs' sp = some (knownExtraNode info)))
          ∧ (¬ ∃ l, mapGet st'.2.1 mp = some (some l) ∧ sp ∈ l)
          ∧ allGroupsAreDicts st'.1 = true
          ∧ dictKeys st'.1 = dictKeys mainParameters := by
      intro st hmainst hMst hAst hKst
      rw [hmain] at hmainst
      obtain ⟨st', hpg, ⟨kvs', akvs', hm', hk', hl'⟩, hM', hA', hK'⟩ :=
        processGroup_focus_asset required knownExtra nonAssetGroups assetGroups
          mp kvs reqList sp info k akvs hmpn hmpa hreq hsp hke hknd hnoNA hak hns
          st hmainst hMst hAst
      exact ⟨st', hpg, ⟨JValue.obj kvs', hm', kvs', akvs', rfl, hk', hl'⟩, hM', hA',
        hK'.trans hKst⟩
    obtain ⟨stF, hcmp, ⟨w, hw, kvs', akvs', rfl, hk', hlook⟩, hMf⟩ :=
      compare_focus_skeleton required knownExtra nonAssetGroups assetGroups
        mainParameters mp sp
        (fun w => ∃ kvs' akvs', w = JValue.obj kvs'
          ∧ mapGet kvs' k = some (JValue.obj akvs')
          ∧ mapGet akvs' sp = some (knownExtraNode info))
        hnodup hdicts hkinds hmp_in core
    exact ⟨stF, hcmp, ⟨kvs', akvs', hw, hk', hlook⟩, hMf⟩

/-- Witness for C9, exercising both insertion branches: a two-group dict
whose non-asset group `simulation_settings` is missing the known-extra
`evaluated_period`, and an asset-group dict whose asset `transformer_1` is
missing the known-extra `dispatchable`. -/
theorem setDefaultInsertsDefaultAndSkipsMissing_witness :
    (∃ stF, compareInputParametersWithReference
        [("project_data", some ["label"]),
         ("simulation_settings", some ["evaluated_period", "label"])]
        [("evaluated_period", ⟨JValue.str "days", JValue.int 365⟩)]
        ["project_data", "economic_data", "simulation_settings"]
        ["energyConversion", "energyStorage"]
        [("project_data", JValue.obj [("label", JValue.str "proj")]),
         ("simulation_settings", JValue.obj [("label", JValue.str "sim")])]
        true false = Except.ok stF
      ∧ (∃ kvs', mapGet stF.1 "simulation_settings" = some (JValue.obj kvs')
           ∧ mapGet kvs' "evaluated_period"
              = some (knownExtraNode ⟨JValue.str "days", JValue.int 365⟩))
      ∧ (¬ ∃ l, mapGet stF.2.1 "simulation_settings" = some (some l)
           ∧ "evaluated_period" ∈ l))
  ∧ (∃ stF, compareInputParametersWithReference
        [("energyConversion", some ["dispatchable"])]
        [("dispatchable", ⟨JValue.str "bool", JValue.bool true⟩)]
        ["project_data"] ["energyConversion"]
        [("energyConversion",
          JValue.obj [("transformer_1", JValue.obj [("label", JValue.str "t1")])])]
        true false = Except.ok stF
      ∧ (∃ kvs' akvs', mapGet stF.1 "energyConversion" = some (JValue.obj kvs')
           ∧ mapGet kvs' "transformer_1" = some (JValue.obj akvs')
           ∧ mapGet akvs' "dispatchable"
              = some (knownExtraNode ⟨JValue.str "bool", JValue.bool true⟩))
      ∧ (¬ ∃ l, mapGet stF.2.1 "energyConversion" = some (some l)
           ∧ "dispatchable" ∈ l)) :=
  ⟨(setDefaultInsertsDefaultAndSkipsMissing
      [("project_data", some ["label"]),
       ("simulation_settings", some ["evaluated_period", "label"])]
      [("evaluated_period", ⟨JValue.str "days", JValue.int 365⟩)]
      ["project_data", "economic_data", "simulation_settings"]
      ["energyConversion", "energyStorage"]
      [("project_data", JValue.obj [("label", JValue.str "proj")]),
       ("simulation_settings", JValue.obj [("label", JValue.str "sim")])]
      "simulation_settings" [("label", JValue.str "sim")]
      ["evaluated_period", "label"] "evaluated_period"
      ⟨JValue.str "days", JValue.int 365⟩
      (by decide) rfl rfl rfl rfl (by decide) rfl).1 (by decide) (by decide),
   (setDefaultInsertsDefaultAndSkipsMissing
      [("energyConversion", some ["dispatchable"])]
      [("dispatchable", ⟨JValue.str "bool", JValue.bool true⟩)]
      ["project_data"] ["energyConversion"]
      [("energyConversion",
        JValue.obj [("transformer_1", JValue.obj [("label", JValue.str "t1")])])]
      "energyConversion"
      [("transformer_1", JValue.obj [("label", JValue.str "t1")])]
      ["dispatchable"] "dispatchable" ⟨JValue.str "bool", JValue.bool true⟩
      (by decide) rfl rfl rfl rfl (by decide) rfl).2
     "transformer_1" [("label", JValue.str "t1")]
     (by decide) (by decide) (by decide) (by decide) rfl (by decide)⟩

end MVS
